import Mathlib

/-
Verification of the trace-construction core of eliot.js (causal structured
logging): task levels, action lifecycle, message framing, field validation
and destination fan-out. JavaScript sources are shallowly embedded: objects
become association lists with assign semantics, mutable state is passed
explicitly, fallible operations return Except, and JS numbers are modelled
by the integer/NaN fragment the library actually exercises.
-/

namespace Eliot

/-- JavaScript number, restricted to the integer and NaN cases reachable in
the library (`parseInt` failures and `undefined + 1` produce `NaN`). -/
inductive JsNum where
  | int : Int → JsNum
  | nan : JsNum
deriving DecidableEq, Repr

/-- `x + 1` applied to the result of `Array.prototype.pop`: popping an empty
array yields `undefined`, and both `undefined + 1` and `NaN + 1` are `NaN`. -/
def jsAddOne : Option JsNum → JsNum
  | none => .nan
  | some .nan => .nan
  | some (.int n) => .int (n + 1)

/-- String conversion of a number (`String(n)`); `NaN` renders as "NaN". -/
def JsNum.render : JsNum → String
  | .int n => toString n
  | .nan => "NaN"

/-- JavaScript values occurring in message dictionaries: primitives, the
number arrays used for task levels, and error objects (name, message). -/
inductive JsValue where
  | vUndef : JsValue
  | vNull : JsValue
  | vBool : Bool → JsValue
  | vNum : JsNum → JsValue
  | vStr : String → JsValue
  | vArr : List JsNum → JsValue
  | vErr : String → String → JsValue
deriving DecidableEq, Repr

/-- Shorthand for an integer value. -/
def vInt (n : Int) : JsValue := .vNum (.int n)

/-- A JS object: an association list read and written with JS object
semantics (`dget`/`dset` below keep keys unique, as in a real object). -/
abbrev Dict := List (String × JsValue)

/-- Member access `d[k]`: `undefined` when the key is absent. -/
def dget : Dict → String → JsValue
  | [], _ => .vUndef
  | p :: d, k => if p.1 = k then p.2 else dget d k

/-- Member assignment `d[k] = v`: replaces the value in place if the key
exists (keeping its position, as JS objects do), otherwise appends. -/
def dset : Dict → String → JsValue → Dict
  | [], k, v => [(k, v)]
  | p :: d, k, v => if p.1 = k then (k, v) :: d else p :: dset d k v

/-- `Object.assign(d, e)`: assigns every entry of `e` onto `d` in order,
later entries overwriting earlier ones with the same key. -/
def dassign (d : Dict) (e : Dict) : Dict :=
  e.foldl (fun acc p => dset acc p.1 p.2) d

/-- Value of the last entry of `e` with key `k`, if any (the value that the
key ends up with after `e` is assigned onto some object). -/
def dlookLast : Dict → String → Option JsValue
  | [], _ => none
  | p :: e, k =>
    match dlookLast e k with
    | some v => some v
    | none => if p.1 = k then some p.2 else none

theorem dget_dset_self (d : Dict) (k : String) (v : JsValue) :
    dget (dset d k v) k = v := by
  induction d with
  | nil => simp [dget, dset]
  | cons p d ih =>
    by_cases h : p.1 = k
    · simp [dget, dset, h]
    · simp [dget, dset, h, ih]

theorem dget_dset_ne (d : Dict) (k k' : String) (v : JsValue) (h : k' ≠ k) :
    dget (dset d k v) k' = dget d k' := by
  have hk : ¬ (k = k') := fun hh => h hh.symm
  induction d with
  | nil => simp [dget, dset, hk]
  | cons p d ih =>
    simp only [dset]
    by_cases hp : p.1 = k
    · rw [if_pos hp]
      simp only [dget]
      rw [if_neg hk, if_neg (fun hh => hk (hp.symm.trans hh))]
    · rw [if_neg hp]
      simp only [dget]
      rw [ih]

theorem dget_dassign (d e : Dict) (k : String) :
    dget (dassign d e) k = (dlookLast e k).getD (dget d k) := by
  induction e generalizing d with
  | nil => simp [dassign, dlookLast]
  | cons p e ih =>
    have step : dassign d (p :: e) = dassign (dset d p.1 p.2) e := by
      simp [dassign]
    rw [step, ih]
    cases hl : dlookLast e k with
    | some v => simp [dlookLast, hl]
    | none =>
      by_cases hp : p.1 = k
      · subst hp
        simp [dlookLast, hl, dget_dset_self]
      · have : k ≠ p.1 := fun hh => hp hh.symm
        simp [dlookLast, hl, hp, dget_dset_ne d p.1 k p.2 this]


/-- The location of a message within the tree of actions of a task
(`TaskLevel` in action.js): a list of message-count components. -/
structure TaskLevel where
  level : List JsNum
deriving DecidableEq, Repr

/-- `nextSibling()`: copies the level, pops the last element and pushes it
plus one. On the empty level `pop()` yields `undefined`, so `[NaN]` results. -/
def TaskLevel.nextSibling (t : TaskLevel) : TaskLevel :=
  ⟨t.level.dropLast ++ [jsAddOne t.level.getLast?]⟩

/-- `child()`: appends `1`. -/
def TaskLevel.child (t : TaskLevel) : TaskLevel :=
  ⟨t.level ++ [.int 1]⟩

/-- `parent()`: drops the last element, `null` (none) for the empty level. -/
def TaskLevel.parent (t : TaskLevel) : Option TaskLevel :=
  if t.level.length > 0 then some ⟨t.level.dropLast⟩ else none

/-- `toString()`: `/` followed by the components joined with `/`. -/
def TaskLevel.render (t : TaskLevel) : String :=
  "/" ++ String.intercalate "/" (t.level.map JsNum.render)

/-- `String.prototype.split(sep)` on a character list; always returns at
least one (possibly empty) group. -/
def splitChars (sep : Char) : List Char → List (List Char)
  | [] => [[]]
  | c :: cs =>
    match splitChars sep cs with
    | [] => [[]]
    | g :: gs => if c = sep then [] :: g :: gs else (c :: g) :: gs

/-- Decimal value of a digit list. -/
def digitsToNat (l : List Char) : Nat :=
  l.foldl (fun a c => a * 10 + (c.toNat - '0'.toNat)) 0

/-- `parseInt(s, 10)`: optional sign, then the longest leading digit run;
`NaN` when no digits lead. -/
def jsParseInt : List Char → JsNum
  | '-' :: rest =>
    match rest.takeWhile Char.isDigit with
    | [] => .nan
    | ds => .int (-(digitsToNat ds : Int))
  | '+' :: rest =>
    match rest.takeWhile Char.isDigit with
    | [] => .nan
    | ds => .int (digitsToNat ds)
  | rest =>
    match rest.takeWhile Char.isDigit with
    | [] => .nan
    | ds => .int (digitsToNat ds)

/-- `TaskLevel.fromString`: split on `/`, drop empty (falsy) components,
parse each as a number. -/
def TaskLevel.fromString (s : String) : TaskLevel :=
  ⟨((splitChars '/' s.data).filter (fun g => g ≠ [])).map jsParseInt⟩

theorem taskLevel_child_parent (L : TaskLevel) : L.child.parent = some L := by
  simp [TaskLevel.child, TaskLevel.parent, List.dropLast_concat]

theorem taskLevel_nextSibling_parent (L : TaskLevel) (h : L.level ≠ []) :
    L.nextSibling.parent = L.parent := by
  simp [TaskLevel.nextSibling, TaskLevel.parent, List.dropLast_concat,
    List.length_pos.mpr h]


/-- A JavaScript error value: constructor name, message, and (for
ValidationError) the `reason` carried alongside the message. -/
structure JsErr where
  name : String
  emsg : String
  reason : Option JsValue
deriving DecidableEq, Repr

/-- `Error.prototype.toString()`: the name alone when the message is empty,
otherwise `name: message`. -/
def JsErr.render (e : JsErr) : String :=
  if e.emsg = "" then e.name else e.name ++ ": " ++ e.emsg

/-- Template-literal string conversion of a value (`String(v)`); arrays
join their elements with commas, errors render like `toString`. -/
def jsDisplay : JsValue → String
  | .vUndef => "undefined"
  | .vNull => "null"
  | .vBool b => cond b "true" "false"
  | .vNum n => n.render
  | .vStr s => s
  | .vArr xs => String.intercalate "," (xs.map JsNum.render)
  | .vErr n m => if m = "" then n else n ++ ": " ++ m

/-- `type-name` package: runtime kind of a value as used by
`JField.forTypes` (errors report their constructor name). -/
def jsTypeName : JsValue → String
  | .vUndef => "undefined"
  | .vNull => "null"
  | .vBool _ => "boolean"
  | .vNum _ => "number"
  | .vStr _ => "string"
  | .vArr _ => "Array"
  | .vErr n _ => n

def MESSAGE_TYPE_FIELD : String := "message_type"
def TASK_UUID_FIELD : String := "task_uuid"
def TASK_LEVEL_FIELD : String := "task_level"
def TIMESTAMP_FIELD : String := "timestamp"
def EXCEPTION_FIELD : String := "exception"
def REASON_FIELD : String := "reason"
def TRACEBACK_FIELD : String := "traceback"
def ACTION_STATUS_FIELD : String := "action_status"
def ACTION_TYPE_FIELD : String := "action_type"
def STARTED_STATUS : String := "started"
def SUCCEEDED_STATUS : String := "succeeded"
def FAILED_STATUS : String := "failed"

/-- `RESERVED_FIELDS` in validation.js, in source order. -/
def RESERVED_FIELDS : List String := [TASK_LEVEL_FIELD, TASK_UUID_FIELD, TIMESTAMP_FIELD]

/-- `_JSON_TYPES` in validation.js. -/
def JSON_TYPES : List String :=
  ["null", "number", "Number", "string", "String", "array", "Array",
   "object", "Object", "boolean", "Boolean"]

/-- `JField` (the source's `Field`, renamed to avoid the Mathlib class): a serializer function (which may throw to reject input) plus
an optional extra validator. Thrown errors are the `Except.error` case. -/
structure JField where
  description : String
  serializer : JsValue → Except JsErr JsValue
  extraValidator : Option (JsValue → Except JsErr Unit)

/-- `JField.forValue(value, description)`. -/
def JField.forValue (value : JsValue) (description : String) : JField :=
  ⟨description,
   fun _ => .ok value,
   some (fun input =>
     if input = value then .ok ()
     else .error ⟨"ValidationError", "Field must be " ++ jsDisplay value, some input⟩)⟩

/-- `JField.forTypes(types, description, extraValidator)`: rejects type
names outside `_JSON_TYPES` at construction time with a TypeError. -/
def JField.forTypes (types : List String) (description : String)
    (extraValidator : Option (JsValue → Except JsErr Unit)) :
    Except JsErr JField :=
  match types.find? (fun t => ¬ JSON_TYPES.contains t) with
  | some t => .error ⟨"TypeError", t ++ " is not JSON-encodable", none⟩
  | none => .ok
    ⟨description,
     fun x => .ok x,
     some (fun input =>
       if ¬ (types.contains (jsTypeName input)) then
         .error ⟨"ValidationError",
                 "Field requires type to be one of: " ++ String.intercalate "," types,
                 some input⟩
       else
         match extraValidator with
         | some ev => ev input
         | none => .ok ())⟩

/-- Total helper for `JField.forTypes` at type lists that are statically
JSON-encodable (the module-level constant fields); the default branch is
unreachable for such lists. -/
def JField.forTypesOk (types : List String) (description : String) : JField :=
  match JField.forTypes types description none with
  | .ok f => f
  | .error _ => ⟨description, fun x => .ok x, none⟩

/-- `Field#validate` (as `JField.validate`): run the serializer purely to detect failure, then the
extra validator if present. -/
def JField.validate (f : JField) (input : JsValue) : Except JsErr Unit :=
  match f.serializer input with
  | .error e => .error e
  | .ok _ =>
    match f.extraValidator with
    | some ev => ev input
    | none => .ok ()

/-- `Field#serialize`. -/
def JField.serialize (f : JField) (input : JsValue) : Except JsErr JsValue :=
  f.serializer input

/-- `BoundField`: a `JField` (the source's `Field`, renamed to avoid the Mathlib class) bound to a key. -/
structure BoundField where
  key : String
  field : JField

/-- `BoundField.forValue(key, value, description)`. -/
def BoundField.forValue (key : String) (value : JsValue) (description : String) :
    BoundField :=
  ⟨key, JField.forValue value description⟩

/-- `BoundField#validate`: re-wraps a ValidationError with the key prefixed
to its message; other errors propagate untouched. -/
def BoundField.validate (bf : BoundField) (input : JsValue) : Except JsErr Unit :=
  match bf.field.validate input with
  | .ok _ => .ok ()
  | .error e =>
    if e.name = "ValidationError" then
      .error ⟨"ValidationError", bf.key ++ ": " ++ e.emsg, e.reason⟩
    else .error e

/-- `BoundField#serialize`. -/
def BoundField.serialize (bf : BoundField) (input : JsValue) : Except JsErr JsValue :=
  bf.field.serialize input

/-- Module constant `REASON` in validation.js. -/
def REASON_BF : BoundField :=
  ⟨REASON_FIELD, JField.forTypesOk ["string", "String"] "The reason for an event."⟩

/-- Module constant `TRACEBACK` in validation.js. -/
def TRACEBACK_BF : BoundField :=
  ⟨TRACEBACK_FIELD, JField.forTypesOk ["string", "String"] "The traceback for an exception."⟩

/-- Module constant `EXCEPTION` in validation.js. -/
def EXCEPTION_BF : BoundField :=
  ⟨EXCEPTION_FIELD, JField.forTypesOk ["string", "String"] "The name of an exception."⟩

/-- The `/^_/` reserved-prefix test on a field key (kernel-reducible model
of `String.startsWith "_"`). -/
def startsWithUnderscore (s : String) : Bool :=
  match s.data with
  | [] => false
  | c :: _ => c = '_'

/-- `_MessageSerializer`: the field-name → BoundField mapping (kept in the
insertion order of the constructor argument) plus the extra-field policy. -/
structure _MessageSerializer where
  fields : List (String × BoundField)
  allowAdditionalFields : Bool

/-- `Set { "a", "b" }` rendering of immutable.js used in the duplicate-key
construction error. -/
def immutSetToString (ks : List String) : String :=
  "Set \x7b " ++ String.intercalate ", " (ks.map (fun k => "\"" ++ k ++ "\"")) ++ " \x7d"

/-- The `_MessageSerializer` constructor with all of its construction-time
checks, in source order: leading-underscore keys, duplicate keys, exactly
one of `action_type`/`message_type`, and no reserved identity fields. -/
def mkMessageSerializer (fields : List BoundField) (allowAdditionalFields : Bool) :
    Except JsErr _MessageSerializer :=
  match fields.find? (fun f => startsWithUnderscore f.key) with
  | some _ =>
    .error ⟨"Error", "[object Object],Field names must not start with \"_\"", none⟩
  | none =>
    let keys := fields.map (fun f => f.key)
    if keys.dedup.length ≠ keys.length then
      .error ⟨"Error", immutSetToString keys.dedup ++ ",Duplicate field name", none⟩
    else if keys.contains ACTION_TYPE_FIELD ∧ keys.contains MESSAGE_TYPE_FIELD then
      .error ⟨"Error",
        "Messages must have either \"action_type\" or \"message_type\" not both", none⟩
    else if ¬ keys.contains ACTION_TYPE_FIELD ∧ ¬ keys.contains MESSAGE_TYPE_FIELD then
      .error ⟨"Error",
        "Messages must have either \"action_type\" or \"message_type\"", none⟩
    else
      match RESERVED_FIELDS.find? (fun r => keys.contains r) with
      | some r =>
        .error ⟨"Error",
          "The field name " ++ r ++ " is reserved for use by the logging framework", none⟩
      | none => .ok ⟨fields.map (fun f => (f.key, f)), allowAdditionalFields⟩

/-- Loop body of `_MessageSerializer#validate`: each schema field must be
present (else "Field k is missing") and pass its own validation. -/
def validateFields : List (String × BoundField) → Dict → Except JsErr Unit
  | [], _ => .ok ()
  | (k, f) :: rest, message =>
    if dget message k = .vUndef then
      .error ⟨"ValidationError", "Field " ++ k ++ " is missing", some (.vStr k)⟩
    else
      match f.validate (dget message k) with
      | .error e => .error e
      | .ok _ => validateFields rest message

/-- `_MessageSerializer#validate`. -/
def _MessageSerializer.validate (ms : _MessageSerializer) (message : Dict) :
    Except JsErr Unit :=
  match validateFields ms.fields message with
  | .error e => .error e
  | .ok _ =>
    if ms.allowAdditionalFields then .ok ()
    else
      match (message.map (fun p => p.1)).find?
          (fun k => ¬ ((ms.fields.map (fun p => p.1)).contains k ∨
                       RESERVED_FIELDS.contains k)) with
      | some k => .error ⟨"ValidationError", "Unexpected field: " ++ k, some (.vStr k)⟩
      | none => .ok ()

/-- Loop body of `_MessageSerializer#serialize`: replaces each schema
field's value in place; stops at (and reports) the first serializer that
throws, returning the dictionary as mutated up to that point. -/
def serializeFields : List (String × BoundField) → Dict → Dict × Option JsErr
  | [], message => (message, none)
  | (k, f) :: rest, message =>
    match f.serialize (dget message k) with
    | .error e => (message, some e)
    | .ok v => serializeFields rest (dset message k v)

/-- `_MessageSerializer#serialize`, with the in-place mutation made
explicit: the returned dictionary is the argument's final state, and the
error (if any) is what the serialize call threw. -/
def _MessageSerializer.serializeRun (ms : _MessageSerializer) (message : Dict) :
    Dict × Option JsErr :=
  serializeFields ms.fields message


/-- A `Message`: field bag (copied on construction, as in the source
constructor's `Object.assign({}, fields)`) plus an optional serializer. -/
structure Message where
  fields : Dict
  serializer : Option _MessageSerializer

/-- `Message.create` / `new Message(fields, serializer)`. -/
def Message.create (fields : Dict) (serializer : Option _MessageSerializer) : Message :=
  ⟨dassign [] fields, serializer⟩

/-- The result of the `MessageType` factory: the type name and the bound
serializer of the returned callable. -/
structure MTModel where
  messageType : String
  serializer : _MessageSerializer

/-- `MessageType(name, fields)`: one serializer over the given fields plus
a constant `message_type` field; throws the serializer's construction
errors. -/
def mkMessageType (messageType : String) (fields : List BoundField) :
    Except JsErr MTModel :=
  match mkMessageSerializer
      (fields ++ [BoundField.forValue MESSAGE_TYPE_FIELD (.vStr messageType)
        "The message type."]) false with
  | .error e => .error e
  | .ok s => .ok ⟨messageType, s⟩

/-- Calling a `MessageType`: stamps `message_type` into the caller's fields
and builds a `Message` bound to the type's serializer. -/
def MTModel.call (t : MTModel) (fields : Dict) : Message :=
  Message.create (dset fields MESSAGE_TYPE_FIELD (.vStr t.messageType)) (some t.serializer)

/-- `_ActionSerializers`: start/success/failure serializers of an action
type. -/
structure ActionSerializers where
  start : _MessageSerializer
  success : _MessageSerializer
  failure : _MessageSerializer

/-- The result of the `ActionType` factory: the type name and the three
serializers attached to the returned callable. -/
structure ATModel where
  actionType : String
  serializers : ActionSerializers

/-- `ActionType(name, startFields, successFields)`: builds the start,
success and failure serializers (the failure one with
`allowAdditionalFields = true`); throws their construction errors. -/
def mkActionType (actionType : String)
    (startFields successFields : List BoundField) : Except JsErr ATModel := do
  let actionTypeField := BoundField.forValue ACTION_TYPE_FIELD (.vStr actionType)
    "The action type"
  let s ← mkMessageSerializer
    (startFields ++ [actionTypeField,
      BoundField.forValue ACTION_STATUS_FIELD (.vStr STARTED_STATUS) "The action status"])
    false
  let u ← mkMessageSerializer
    (successFields ++ [actionTypeField,
      BoundField.forValue ACTION_STATUS_FIELD (.vStr SUCCEEDED_STATUS) "The action status"])
    false
  let f ← mkMessageSerializer
    [actionTypeField,
     BoundField.forValue ACTION_STATUS_FIELD (.vStr FAILED_STATUS) "The action status",
     REASON_BF, EXCEPTION_BF]
    true
  .ok ⟨actionType, ⟨s, u, f⟩⟩

/-- An argument position of a `startTask` call, as an untyped JS call site
sees it: either a plain fields dictionary or an `_ActionSerializers`
object. -/
inductive StartTaskArg where
  | dictArg : Dict → StartTaskArg
  | sersArg : ActionSerializers → StartTaskArg

/-- The third and fourth arguments of the `startTask` call made by the
source's `ActionType#asTask`, which reads
`startTask(logger, actionType, _serializers, fields)`: the serializers
object lands in `startTask`'s `fields` parameter and the caller's fields
dictionary in its `_serializers` parameter. -/
def ATModel.asTaskArgs (t : ATModel) (fields : Dict) : StartTaskArg × StartTaskArg :=
  (StartTaskArg.sersArg t.serializers, StartTaskArg.dictArg fields)

/-- Modelled from the spec: the intended contract of `asTask` — fields as
`startTask`'s `fields` parameter, the type's serializers as its
`_serializers` parameter (`startTask(logger, actionType, fields,
_serializers)`). -/
def ATModel.asTaskIntendedArgs (t : ATModel) (fields : Dict) :
    StartTaskArg × StartTaskArg :=
  (StartTaskArg.dictArg fields, StartTaskArg.sersArg t.serializers)


/-- The mutable state of an `Action` (action.js): identification
(`task_uuid`, `action_type`), its own task level, the `_lastChild` level
counter, the finished flag, the accumulated success fields and the bound
serializers. The `_logger` reference is threaded separately as the
`MemWorld` state of each operation. -/
structure Action where
  taskUuid : String
  actionType : String
  taskLevel : TaskLevel
  lastChild : Option TaskLevel
  finished : Bool
  successFields : Dict
  serializers : Option ActionSerializers

/-- The `Action` constructor. -/
def Action.make (taskUuid : String) (taskLevel : TaskLevel) (actionType : String)
    (serializers : Option ActionSerializers) : Action :=
  ⟨taskUuid, actionType, taskLevel, none, false, [], serializers⟩

/-- `Action#_nextTaskLevel`: first call allocates `taskLevel.child()`,
subsequent calls `lastChild.nextSibling()`; updates `_lastChild`. -/
def Action.nextTaskLevel (a : Action) : TaskLevel × Action :=
  let l := match a.lastChild with
           | none => a.taskLevel.child
           | some lc => lc.nextSibling
  (l, { a with lastChild := some l })

/-- The state of a `MemoryLogger` (its `messages` and `serializers`
arrays) together with the ambient sources of freshness used by message
framing: the `uuid.v4()` generator (a counter here) and the clock. The
`tracebackMessages` array, which collects writes whose serializer is
reference-identical to the traceback serializer, is omitted: no property
below observes it and it needs reference identity to express. -/
structure MemWorld where
  messages : List Dict
  serializers : List (Option _MessageSerializer)
  uuidCtr : Nat
  time : Int

/-- A fresh `uuid.v4()` value. -/
def freshUuid (n : Nat) : String := "uuid-" ++ toString n

/-- The empty recording world. -/
def initW : MemWorld := ⟨[], [], 0, 0⟩

/-- `MemoryLogger#write`: records the dictionary and serializer verbatim. -/
def MemoryLogger.write (w : MemWorld) (d : Dict) (ser : Option _MessageSerializer) :
    MemWorld :=
  { w with messages := w.messages ++ [d], serializers := w.serializers ++ [ser] }

/-- `Message#_freeze` with an explicit action: returns a copy of the fields
with `timestamp`, `task_uuid` and `task_level` added, the level freshly
allocated from the action. -/
def Message.freezeWith (m : Message) (a : Action) (t : Int) : Dict × Action :=
  let (lvl, a') := a.nextTaskLevel
  (dassign (dassign [] m.fields)
     [(TIMESTAMP_FIELD, vInt t),
      (TASK_UUID_FIELD, .vStr a.taskUuid),
      (TASK_LEVEL_FIELD, .vArr lvl.level)], a')

/-- `Message#write` against a `MemoryLogger` with an explicit action:
freeze, then record. -/
def Message.writeMem (m : Message) (w : MemWorld) (a : Action) : MemWorld × Action :=
  let (frozen, a') := m.freezeWith a w.time
  (MemoryLogger.write w frozen m.serializer, a')

/-- `Action#_start`: sets `action_status = started`, assigns the
identification fields, and writes a `Message` bound to the start
serializer (if any) through the action's logger. -/
def Action._start (a : Action) (fields : Dict) (w : MemWorld) : Action × MemWorld :=
  let fields1 := dset fields ACTION_STATUS_FIELD (.vStr STARTED_STATUS)
  let fields2 := dassign fields1
    [(TASK_UUID_FIELD, .vStr a.taskUuid), (ACTION_TYPE_FIELD, .vStr a.actionType)]
  let m := Message.create fields2 (a.serializers.map (fun s => s.start))
  let (w', a') := m.writeMem w a
  (a', w')

/-- `Action#finish`: no-op when already finished; otherwise sets the flag,
builds the success fields (accumulated success fields plus
`action_status = succeeded`) or the failure fields (`exception`, `reason`,
`action_status = failed`), assigns the identification, and writes the
message with the matching serializer. On success the source mutates
`_successFields` through the `fields` alias, which the state update
mirrors. -/
def Action.finish (a : Action) (error : Option JsErr) (w : MemWorld) : Action × MemWorld :=
  if a.finished then (a, w)
  else
    match error with
    | none =>
      let fields1 := dset a.successFields ACTION_STATUS_FIELD (.vStr SUCCEEDED_STATUS)
      let fields2 := dassign fields1
        [(TASK_UUID_FIELD, .vStr a.taskUuid), (ACTION_TYPE_FIELD, .vStr a.actionType)]
      let m := Message.create fields2 (a.serializers.map (fun s => s.success))
      let (w', a') := m.writeMem w { a with finished := true, successFields := fields2 }
      (a', w')
    | some e =>
      let fields1 := dset (dset (dset [] EXCEPTION_FIELD (.vStr e.name))
        REASON_FIELD (.vStr e.render)) ACTION_STATUS_FIELD (.vStr FAILED_STATUS)
      let fields2 := dassign fields1
        [(TASK_UUID_FIELD, .vStr a.taskUuid), (ACTION_TYPE_FIELD, .vStr a.actionType)]
      let m := Message.create fields2 (a.serializers.map (fun s => s.failure))
      let (w', a') := m.writeMem w { a with finished := true }
      (a', w')

/-- `Action#child`: a new action sharing the parent's `task_uuid`, at the
parent's next allocated level; returns the child and the updated parent. -/
def Action.child (a : Action) (actionType : String)
    (serializers : Option ActionSerializers) : Action × Action :=
  let (lvl, a') := a.nextTaskLevel
  (Action.make a.taskUuid lvl actionType serializers, a')

/-- `startTask`: a brand-new root action (fresh uuid, empty task level),
started immediately. -/
def startTask (w : MemWorld) (actionType : String) (fields : Dict)
    (serializers : Option ActionSerializers) : Action × MemWorld :=
  let a := Action.make (freshUuid w.uuidCtr) ⟨[]⟩ actionType serializers
  a._start fields { w with uuidCtr := w.uuidCtr + 1 }

/-- `startAction`: child of the current action when one exists (returning
the updated parent as well), otherwise exactly `startTask`. -/
def startAction (parent : Option Action) (w : MemWorld) (actionType : String)
    (fields : Dict) (serializers : Option ActionSerializers) :
    Action × Option Action × MemWorld :=
  match parent with
  | none =>
    let (a, w') := startTask w actionType fields serializers
    (a, none, w')
  | some p =>
    let (c, p') := p.child actionType serializers
    let (c', w') := c._start fields w
    (c', some p', w')

/-- `Action#serializeTaskId`: `uuid@<nextLevel>`, consuming a child-level
slot. -/
def Action.serializeTaskId (a : Action) : String × Action :=
  let (lvl, a') := a.nextTaskLevel
  (a.taskUuid ++ "@" ++ lvl.render, a')

/-- `Action.continueTask`: split the task identifier on `@`, build an
action at the parsed level with the reserved remote action type, and start
it. When the identifier has no `@`, the source crashes on
`fromString(undefined)`; that is the `none` case. -/
def Action.continueTask (taskId : String) (w : MemWorld) : Option (Action × MemWorld) :=
  match splitChars '@' taskId.data with
  | u :: lvl :: _ =>
    let a := Action.make (String.mk u) (TaskLevel.fromString (String.mk lvl))
      "eliot_js:remote_task" none
    some (a._start [] w)
  | _ => none

/-- `Action#addSuccessFields`. -/
def Action.addSuccessFields (a : Action) (fields : Dict) : Action :=
  { a with successFields := dassign a.successFields fields }

/-- `Message.log(fields)`: create an unserialized message and write it via
the current action (the action under which `f` runs inside `withAction`). -/
def Message.log (fields : Dict) (w : MemWorld) (a : Action) : MemWorld × Action :=
  (Message.create fields none).writeMem w a

/-- One observable step of the function wrapped by `withAction`: it can
merge success fields, call `finish` itself, or log a message through the
ambient action (which `Action#run`'s context push makes the current one). -/
inductive FCmd where
  | addSuccess : Dict → FCmd
  | finishCmd : Option JsErr → FCmd
  | logMsg : Dict → FCmd

/-- The behaviour of the function wrapped by `withAction`: the steps it
performs against the action, and whether it returns normally (`none`) or
throws an error. -/
structure FB where
  cmds : List FCmd
  outcome : Option JsErr

/-- Does the behaviour call `finish` itself at some point? -/
def FB.selfFinishes (cmds : List FCmd) : Bool :=
  cmds.any (fun c => match c with | .finishCmd _ => true | _ => false)

/-- Interpret the wrapped function's steps against the action and logger. -/
def runCmds : List FCmd → Action → MemWorld → Action × MemWorld
  | [], a, w => (a, w)
  | c :: cs, a, w =>
    match c with
    | .addSuccess f => runCmds cs (a.addSuccessFields f) w
    | .finishCmd e =>
      let (a', w') := a.finish e w
      runCmds cs a' w'
    | .logMsg f =>
      let (w', a') := Message.log f w a
      runCmds cs a' w'

/-- `withAction(action, f)`: run `f` under the action's context (the
`Action#run` push/pop is what routes `f`'s logging to the action, modelled
by interpreting `f`'s steps directly against it); on normal return call
`finish()` and return the result, on a throw call `finish(error)` and
re-raise the same error. -/
def withAction (a : Action) (fb : FB) (w : MemWorld) : Action × MemWorld × Option JsErr :=
  let (a1, w1) := runCmds fb.cmds a w
  match fb.outcome with
  | none =>
    let (a2, w2) := a1.finish none w1
    (a2, w2, none)
  | some e =>
    let (a2, w2) := a1.finish (some e) w1
    (a2, w2, some e)

/-- Number of recorded messages whose `action_status` is `status`. -/
def statusCount (msgs : List Dict) (status : String) : Nat :=
  (msgs.filter (fun d => dget d ACTION_STATUS_FIELD = .vStr status)).length

/-- Number of terminal (succeeded or failed) messages. -/
def terminalCount (msgs : List Dict) : Nat :=
  statusCount msgs SUCCEEDED_STATUS + statusCount msgs FAILED_STATUS


theorem dassign_nil (d : Dict) : dassign d [] = d := rfl

theorem dassign_cons (d : Dict) (p : String × JsValue) (e : Dict) :
    dassign d (p :: e) = dassign (dset d p.1 p.2) e := rfl

/-- Well-formedness of a dictionary as a JS object: keys are unique.
Every object built by the library's own assignments satisfies it. -/
abbrev keysNodup (d : Dict) : Prop := (d.map Prod.fst).Nodup

theorem dset_absent (d : Dict) (k : String) (v : JsValue)
    (h : ∀ p ∈ d, p.1 ≠ k) : dset d k v = d ++ [(k, v)] := by
  induction d with
  | nil => simp [dset]
  | cons p d ih =>
    have hp : p.1 ≠ k := h p (List.mem_cons_self p d)
    simp only [dset, if_neg hp, List.cons_append, List.cons.injEq, true_and]
    exact ih (fun q hq => h q (List.mem_cons_of_mem p hq))

theorem keys_dset_mem (d : Dict) (k : String) (v : JsValue)
    (h : k ∈ d.map Prod.fst) : (dset d k v).map Prod.fst = d.map Prod.fst := by
  induction d with
  | nil => simp at h
  | cons p d ih =>
    by_cases hp : p.1 = k
    · simp [dset, hp]
    · have : k ∈ d.map Prod.fst := by
        rcases List.mem_map.mp h with ⟨q, hq, hk⟩
        rcases List.mem_cons.mp hq with hq | hq
        · exact absurd (hq ▸ hk) hp
        · exact List.mem_map.mpr ⟨q, hq, hk⟩
      simp [dset, hp, ih this]

theorem keys_dset_absent (d : Dict) (k : String) (v : JsValue)
    (h : k ∉ d.map Prod.fst) :
    (dset d k v).map Prod.fst = d.map Prod.fst ++ [k] := by
  have : ∀ p ∈ d, p.1 ≠ k := by
    intro p hp he
    exact h (List.mem_map.mpr ⟨p, hp, he⟩)
  rw [dset_absent d k v this]
  simp

theorem keysNodup_dset (d : Dict) (k : String) (v : JsValue)
    (h : keysNodup d) : keysNodup (dset d k v) := by
  by_cases hk : k ∈ d.map Prod.fst
  · unfold keysNodup
    rw [keys_dset_mem d k v hk]
    exact h
  · unfold keysNodup
    rw [keys_dset_absent d k v hk]
    simp [List.nodup_append, h, hk]

theorem keysNodup_dassign (d e : Dict) (h : keysNodup d) :
    keysNodup (dassign d e) := by
  induction e generalizing d with
  | nil => simpa [dassign] using h
  | cons p e ih =>
    rw [dassign_cons]
    exact ih _ (keysNodup_dset d p.1 p.2 h)

theorem dassign_eq_append (d e : Dict)
    (hd : ∀ k ∈ e.map Prod.fst, ∀ p ∈ d, p.1 ≠ k) (he : keysNodup e) :
    dassign d e = d ++ e := by
  induction e generalizing d with
  | nil => simp [dassign]
  | cons p e ih =>
    rw [dassign_cons]
    have h1 : ∀ q ∈ d, q.1 ≠ p.1 :=
      hd p.1 (List.mem_map.mpr ⟨p, List.mem_cons_self p e, rfl⟩)
    rw [dset_absent d p.1 p.2 h1]
    have he' : (p.1 :: e.map Prod.fst).Nodup := he
    rw [List.nodup_cons] at he'
    have hpe : p.1 ∉ e.map Prod.fst := he'.1
    have h2 : ∀ k ∈ e.map Prod.fst, ∀ q ∈ d ++ [(p.1, p.2)], q.1 ≠ k := by
      intro k hk q hq
      rcases List.mem_append.mp hq with hq | hq
      · exact hd k (List.mem_map.mpr (by
          rcases List.mem_map.mp hk with ⟨r, hr, hrk⟩
          exact ⟨r, List.mem_cons_of_mem p hr, hrk⟩)) q hq
      · simp at hq
        intro he2
        rw [hq] at he2
        exact hpe (he2 ▸ hk)
    have he2 : keysNodup e := he'.2
    rw [ih _ h2 he2]
    simp

/-- The `Object.assign({}, e)` copy of a well-formed object is the object
itself. -/
theorem dassign_nil_copy (e : Dict) (he : keysNodup e) : dassign [] e = e := by
  rw [dassign_eq_append [] e (by intro k _ p hp; simp at hp) he]
  simp

/-- C9: for every task level, `child().parent()` recovers the level itself;
`nextSibling().parent()` agrees with `parent()` on every non-empty level,
but not at the empty root level, where `nextSibling` pushes `NaN` (from
`pop()` of an empty array) and so has the root as parent while the root
itself has none. -/
theorem c9_parent_laws (L : TaskLevel) :
    L.child.parent = some L ∧
    (L.level ≠ [] → L.nextSibling.parent = L.parent) :=
  ⟨taskLevel_child_parent L, taskLevel_nextSibling_parent L⟩

/-- Witness for C9 at the concrete level `[3, 4]`. -/
theorem c9_parent_laws_witness :
    (⟨[.int 3, .int 4]⟩ : TaskLevel).level ≠ [] ∧
    (⟨[.int 3, .int 4]⟩ : TaskLevel).child.parent = some ⟨[.int 3, .int 4]⟩ ∧
    (⟨[.int 3, .int 4]⟩ : TaskLevel).nextSibling.parent =
      (⟨[.int 3, .int 4]⟩ : TaskLevel).parent :=
  ⟨by decide, (c9_parent_laws ⟨[.int 3, .int 4]⟩).1,
   (c9_parent_laws ⟨[.int 3, .int 4]⟩).2 (by decide)⟩

/-- C9 counterexample: at the empty root level the claimed law
`L.nextSibling().parent() == L.parent()` fails — the left side is the root
level, the right side is `null`. -/
theorem c9_counterexample :
    (⟨[]⟩ : TaskLevel).nextSibling.parent ≠ (⟨[]⟩ : TaskLevel).parent := by
  decide

/-- C3 counterexample: an action constructed at task level `[3, 4]` writes
its start message at task level `[3, 4, 1]` — the freshly allocated first
child level — not at `[3, 4]` itself. -/
theorem c3_counterexample :
    dget (((Action.make "u" ⟨[.int 3, .int 4]⟩ "sys:me" none)._start [] initW).2.messages.getD 0 [])
        TASK_LEVEL_FIELD = .vArr [.int 3, .int 4, .int 1] ∧
    dget (((Action.make "u" ⟨[.int 3, .int 4]⟩ "sys:me" none)._start [] initW).2.messages.getD 0 [])
        TASK_LEVEL_FIELD ≠ .vArr [.int 3, .int 4] := by
  decide

/-- C3 amended: for every action constructed with task level `L`, the
`task_level` of its start message is `L.child()` — the action's first
allocated child level — rather than `L` itself. -/
theorem c3_start_level (uuid actionType : String) (L : TaskLevel)
    (sers : Option ActionSerializers) (fields : Dict) (w : MemWorld) :
    ∃ m, ((Action.make uuid L actionType sers)._start fields w).2.messages
        = w.messages ++ [m] ∧
      dget m TASK_LEVEL_FIELD = .vArr L.child.level := by
  refine ⟨_, rfl, ?_⟩
  simp only [dassign_cons, dassign_nil]
  rw [dget_dset_self]
  rfl

/-- C6: the source's `ActionType#asTask` calls
`startTask(logger, actionType, _serializers, fields)`, so the argument in
`startTask`'s `fields` position is the serializers object and the
argument in its `_serializers` position is the caller's fields
dictionary — never the assignment the spec intends. -/
theorem c6_asTask_swaps_args (t : ATModel) (d : Dict) :
    (t.asTaskArgs d).1 = StartTaskArg.sersArg t.serializers ∧
    (t.asTaskArgs d).2 = StartTaskArg.dictArg d ∧
    (t.asTaskArgs d).1 ≠ (t.asTaskIntendedArgs d).1 := by
  refine ⟨rfl, rfl, ?_⟩
  intro h
  exact StartTaskArg.noConfusion h


theorem mk_ok_conditions (fields : List BoundField) (allowAdd : Bool)
    (s : _MessageSerializer)
    (h : mkMessageSerializer fields allowAdd = .ok s) :
    (fields.map (fun f => f.key)).Nodup ∧
    ¬ ((fields.map (fun f => f.key)).contains ACTION_TYPE_FIELD ∧
       (fields.map (fun f => f.key)).contains MESSAGE_TYPE_FIELD) ∧
    ¬ (¬ (fields.map (fun f => f.key)).contains ACTION_TYPE_FIELD ∧
       ¬ (fields.map (fun f => f.key)).contains MESSAGE_TYPE_FIELD) := by
  unfold mkMessageSerializer at h
  cases hf : fields.find? (fun f => startsWithUnderscore f.key) with
  | some f => rw [hf] at h; cases h
  | none =>
    rw [hf] at h
    simp only at h
    by_cases h1 : (fields.map (fun f => f.key)).dedup.length ≠
        (fields.map (fun f => f.key)).length
    · rw [if_pos h1] at h; cases h
    · rw [if_neg h1] at h
      have hnodup : (fields.map (fun f => f.key)).Nodup := by
        have hlen : (fields.map (fun f => f.key)).dedup.length =
            (fields.map (fun f => f.key)).length := not_ne_iff.mp h1
        have hsub := List.dedup_sublist (fields.map (fun f => f.key))
        rw [← hsub.eq_of_length hlen]
        exact List.nodup_dedup _
      by_cases h2 : ((fields.map (fun f => f.key)).contains ACTION_TYPE_FIELD ∧
          (fields.map (fun f => f.key)).contains MESSAGE_TYPE_FIELD)
      · rw [if_pos h2] at h; cases h
      · rw [if_neg h2] at h
        by_cases h3 : (¬ (fields.map (fun f => f.key)).contains ACTION_TYPE_FIELD ∧
            ¬ (fields.map (fun f => f.key)).contains MESSAGE_TYPE_FIELD)
        · rw [if_pos h3] at h; cases h
        · exact ⟨hnodup, h2, h3⟩

theorem mk_reserved_error (fields : List BoundField) (allowAdd : Bool)
    (h_ : ∀ f ∈ fields, startsWithUnderscore f.key = false)
    (hnd : (fields.map (fun f => f.key)).Nodup)
    (h2 : ¬ ((fields.map (fun f => f.key)).contains ACTION_TYPE_FIELD ∧
             (fields.map (fun f => f.key)).contains MESSAGE_TYPE_FIELD))
    (h3 : ¬ (¬ (fields.map (fun f => f.key)).contains ACTION_TYPE_FIELD ∧
             ¬ (fields.map (fun f => f.key)).contains MESSAGE_TYPE_FIELD))
    (r : String) (hr : r ∈ RESERVED_FIELDS)
    (hrk : r ∈ fields.map (fun f => f.key)) :
    ∃ r', r' ∈ RESERVED_FIELDS ∧ r' ∈ fields.map (fun f => f.key) ∧
      mkMessageSerializer fields allowAdd = .error
        ⟨"Error", "The field name " ++ r' ++
          " is reserved for use by the logging framework", none⟩ := by
  have hf : fields.find? (fun f => startsWithUnderscore f.key) = none :=
    List.find?_eq_none.mpr (fun f hfm => by simp [h_ f hfm])
  have h1 : ¬ ((fields.map (fun f => f.key)).dedup.length ≠
      (fields.map (fun f => f.key)).length) := by
    rw [List.dedup_eq_self.mpr hnd]
    simp
  have hsome : (RESERVED_FIELDS.find?
      (fun r => (fields.map (fun f => f.key)).contains r)).isSome := by
    rw [List.find?_isSome]
    exact ⟨r, hr, by simpa [List.contains, List.elem_iff] using hrk⟩
  cases hfind : RESERVED_FIELDS.find?
      (fun r => (fields.map (fun f => f.key)).contains r) with
  | none => rw [hfind] at hsome; cases hsome
  | some r' =>
    refine ⟨r', List.mem_of_find?_eq_some hfind, ?_, ?_⟩
    · have := List.find?_some hfind
      simpa [List.contains, List.elem_iff] using this
    · unfold mkMessageSerializer
      rw [hf]
      simp only
      rw [if_neg h1, if_neg h2, if_neg h3, hfind]

/-- C7: a `_MessageSerializer` built with both `action_type` and
`message_type`, or with neither, throws at construction, and so does one
with duplicate keys; a serializer whose fields include a reserved identity
field (`task_level`/`task_uuid`/`timestamp`) and which passes the earlier
checks (no leading-underscore key, no duplicates, exactly one
discriminator) throws the error naming the offending reserved field. When
an earlier check fails first, its error is reported instead (see the
counterexample). -/
theorem c7_construction_errors (fields : List BoundField) (allowAdd : Bool) :
    (((fields.map (fun f => f.key)).contains ACTION_TYPE_FIELD ∧
      (fields.map (fun f => f.key)).contains MESSAGE_TYPE_FIELD) →
       ∃ e, mkMessageSerializer fields allowAdd = .error e) ∧
    ((¬ (fields.map (fun f => f.key)).contains ACTION_TYPE_FIELD ∧
      ¬ (fields.map (fun f => f.key)).contains MESSAGE_TYPE_FIELD) →
       ∃ e, mkMessageSerializer fields allowAdd = .error e) ∧
    (¬ (fields.map (fun f => f.key)).Nodup →
       ∃ e, mkMessageSerializer fields allowAdd = .error e) ∧
    ((∀ f ∈ fields, startsWithUnderscore f.key = false) →
     (fields.map (fun f => f.key)).Nodup →
     ¬ ((fields.map (fun f => f.key)).contains ACTION_TYPE_FIELD ∧
        (fields.map (fun f => f.key)).contains MESSAGE_TYPE_FIELD) →
     ¬ (¬ (fields.map (fun f => f.key)).contains ACTION_TYPE_FIELD ∧
        ¬ (fields.map (fun f => f.key)).contains MESSAGE_TYPE_FIELD) →
     ∀ r ∈ RESERVED_FIELDS, r ∈ fields.map (fun f => f.key) →
       ∃ r', r' ∈ RESERVED_FIELDS ∧ r' ∈ fields.map (fun f => f.key) ∧
         mkMessageSerializer fields allowAdd = .error
           ⟨"Error", "The field name " ++ r' ++
             " is reserved for use by the logging framework", none⟩) := by
  refine ⟨?_, ?_, ?_, ?_⟩
  · intro hboth
    cases hmk : mkMessageSerializer fields allowAdd with
    | error e => exact ⟨e, rfl⟩
    | ok s => exact absurd hboth (mk_ok_conditions fields allowAdd s hmk).2.1
  · intro hneither
    cases hmk : mkMessageSerializer fields allowAdd with
    | error e => exact ⟨e, rfl⟩
    | ok s => exact absurd hneither (mk_ok_conditions fields allowAdd s hmk).2.2
  · intro hdup
    cases hmk : mkMessageSerializer fields allowAdd with
    | error e => exact ⟨e, rfl⟩
    | ok s => exact absurd (mk_ok_conditions fields allowAdd s hmk).1 hdup
  · intro h_ hnd h2 h3 r hr hrk
    exact mk_reserved_error fields allowAdd h_ hnd h2 h3 r hr hrk

/-- Witness for C7: a schema with both discriminators errors; one with
neither errors; duplicate keys error; and `[task_level, message_type]`
(passing every earlier check) yields the error naming `task_level`. -/
theorem c7_construction_errors_witness :
    (∃ e, mkMessageSerializer
      [BoundField.forValue ACTION_TYPE_FIELD (.vStr "t") "",
       BoundField.forValue MESSAGE_TYPE_FIELD (.vStr "t") ""] false = .error e) ∧
    (∃ e, mkMessageSerializer
      [BoundField.forValue "plain" (.vStr "t") ""] false = .error e) ∧
    (∃ e, mkMessageSerializer
      [BoundField.forValue "message_type" (.vStr "t") "",
       BoundField.forValue "message_type" (.vStr "u") ""] false = .error e) ∧
    (∃ r', r' ∈ RESERVED_FIELDS ∧
      r' ∈ [BoundField.forValue TASK_LEVEL_FIELD .vNull "",
            BoundField.forValue MESSAGE_TYPE_FIELD (.vStr "t") ""].map (fun f => f.key) ∧
      mkMessageSerializer
        [BoundField.forValue TASK_LEVEL_FIELD .vNull "",
         BoundField.forValue MESSAGE_TYPE_FIELD (.vStr "t") ""] false = .error
          ⟨"Error", "The field name " ++ r' ++
            " is reserved for use by the logging framework", none⟩) := by
  refine ⟨?_, ?_, ?_, ?_⟩
  · exact (c7_construction_errors _ false).1 (by constructor <;> decide)
  · exact (c7_construction_errors _ false).2.1 (by constructor <;> decide)
  · exact (c7_construction_errors _ false).2.2.1 (by decide)
  · exact (c7_construction_errors _ false).2.2.2 (by decide) (by decide)
      (by decide) (by decide) TASK_LEVEL_FIELD (by decide) (by decide)

/-- C7 counterexample: a serializer built with a `task_level` field but no
discriminator throws the missing-discriminator error, whose message does
not name the reserved field — so "a construction error whose message names
the offending reserved field" does not hold for every field list
containing a reserved field. -/
theorem c7_counterexample :
    mkMessageSerializer [BoundField.forValue TASK_LEVEL_FIELD .vNull ""] false =
      .error ⟨"Error", "Messages must have either \"action_type\" or \"message_type\"",
        none⟩ ∧
    ("Messages must have either \"action_type\" or \"message_type\"" : String) ≠
      "The field name " ++ TASK_LEVEL_FIELD ++
        " is reserved for use by the logging framework" := by
  exact ⟨rfl, by decide⟩


theorem validateFields_ok (fs : List (String × BoundField)) (msg : Dict)
    (h : ∀ p ∈ fs, dget msg p.1 ≠ .vUndef ∧ p.2.validate (dget msg p.1) = .ok ()) :
    validateFields fs msg = .ok () := by
  induction fs with
  | nil => rfl
  | cons p fs ih =>
    obtain ⟨hne, hok⟩ := h p (List.mem_cons_self p fs)
    cases p with
    | mk k f =>
      simp only [validateFields]
      rw [if_neg hne, hok]
      exact ih (fun q hq => h q (List.mem_cons_of_mem _ hq))

theorem validateFields_missing (pre rest : List (String × BoundField)) (k : String)
    (f : BoundField) (msg : Dict)
    (hpre : ∀ p ∈ pre, dget msg p.1 ≠ .vUndef ∧ p.2.validate (dget msg p.1) = .ok ())
    (hk : dget msg k = .vUndef) :
    validateFields (pre ++ (k, f) :: rest) msg =
      .error ⟨"ValidationError", "Field " ++ k ++ " is missing", some (.vStr k)⟩ := by
  induction pre with
  | nil =>
    simp only [List.nil_append, validateFields]
    rw [if_pos hk]
  | cons p pre ih =>
    obtain ⟨hne, hok⟩ := hpre p (List.mem_cons_self p pre)
    cases p with
    | mk k' f' =>
      simp only [List.cons_append, validateFields]
      rw [if_neg hne, hok]
      exact ih (fun q hq => hpre q (List.mem_cons_of_mem _ hq))

theorem validateFields_invalid (pre rest : List (String × BoundField)) (k : String)
    (f : BoundField) (msg : Dict) (e : JsErr)
    (hpre : ∀ p ∈ pre, dget msg p.1 ≠ .vUndef ∧ p.2.validate (dget msg p.1) = .ok ())
    (hne : dget msg k ≠ .vUndef)
    (hv : f.validate (dget msg k) = .error e) :
    validateFields (pre ++ (k, f) :: rest) msg = .error e := by
  induction pre with
  | nil =>
    simp only [List.nil_append, validateFields]
    rw [if_neg hne, hv]
  | cons p pre ih =>
    obtain ⟨hne', hok⟩ := hpre p (List.mem_cons_self p pre)
    cases p with
    | mk k' f' =>
      simp only [List.cons_append, validateFields]
      rw [if_neg hne', hok]
      exact ih (fun q hq => hpre q (List.mem_cons_of_mem _ hq))

theorem validate_after_fields (ms : _MessageSerializer) (msg : Dict)
    (h : validateFields ms.fields msg = .ok ()) :
    ms.validate msg =
      if ms.allowAdditionalFields then .ok ()
      else
        match (msg.map (fun p => p.1)).find?
            (fun k => ¬ ((ms.fields.map (fun p => p.1)).contains k ∨
                         RESERVED_FIELDS.contains k)) with
        | some k => .error ⟨"ValidationError", "Unexpected field: " ++ k, some (.vStr k)⟩
        | none => .ok () := by
  unfold _MessageSerializer.validate
  rw [h]

/-- C8: `validate` walks the schema fields in order: when every earlier
schema field is present and valid, a missing field `k` yields the
ValidationError naming `k` ("Field k is missing") and an invalid field
yields that field's own error, whichever schema position comes first. When
every schema field is present and valid: the dictionary validates cleanly
if every key is a schema field or a reserved identity field (or
`allowAdditionalFields` is set, in which case extra keys are ignored), and
with `allowAdditionalFields` unset the first key outside schema ∪ reserved
yields the ValidationError naming that unexpected field. -/
theorem c8_validate (ms : _MessageSerializer) (msg : Dict) :
    ((∀ p ∈ ms.fields, dget msg p.1 ≠ .vUndef ∧ p.2.validate (dget msg p.1) = .ok ()) →
     (ms.allowAdditionalFields = true ∨
      ∀ k ∈ msg.map Prod.fst,
        ((ms.fields.map (fun p => p.1)).contains k ∨ RESERVED_FIELDS.contains k)) →
       ms.validate msg = .ok ()) ∧
    (∀ pre k f rest, ms.fields = pre ++ (k, f) :: rest →
     (∀ p ∈ pre, dget msg p.1 ≠ .vUndef ∧ p.2.validate (dget msg p.1) = .ok ()) →
     dget msg k = .vUndef →
       ms.validate msg =
         .error ⟨"ValidationError", "Field " ++ k ++ " is missing", some (.vStr k)⟩) ∧
    (∀ pre k f rest e, ms.fields = pre ++ (k, f) :: rest →
     (∀ p ∈ pre, dget msg p.1 ≠ .vUndef ∧ p.2.validate (dget msg p.1) = .ok ()) →
     dget msg k ≠ .vUndef → f.validate (dget msg k) = .error e →
       ms.validate msg = .error e) ∧
    ((∀ p ∈ ms.fields, dget msg p.1 ≠ .vUndef ∧ p.2.validate (dget msg p.1) = .ok ()) →
     ms.allowAdditionalFields = false →
     ∀ kpre k krest, msg.map Prod.fst = kpre ++ k :: krest →
     (∀ k' ∈ kpre,
        ((ms.fields.map (fun p => p.1)).contains k' ∨ RESERVED_FIELDS.contains k')) →
     ¬ ((ms.fields.map (fun p => p.1)).contains k ∨ RESERVED_FIELDS.contains k) →
       ms.validate msg =
         .error ⟨"ValidationError", "Unexpected field: " ++ k, some (.vStr k)⟩) := by
  refine ⟨?_, ?_, ?_, ?_⟩
  · intro hf hextra
    rw [validate_after_fields ms msg (validateFields_ok ms.fields msg hf)]
    rcases hextra with hadd | hknown
    · rw [if_pos hadd]
    · by_cases hadd : ms.allowAdditionalFields
      · rw [if_pos hadd]
      · rw [if_neg hadd]
        have hnone : (msg.map (fun p => p.1)).find?
            (fun k => ¬ ((ms.fields.map (fun p => p.1)).contains k ∨
              RESERVED_FIELDS.contains k)) = none := by
          rw [List.find?_eq_none]
          intro k hk
          simp only [decide_not, Bool.not_eq_true', Bool.not_eq_false, decide_eq_true_eq]
          exact hknown k (by simpa using hk)
        rw [hnone]
  · intro pre k f rest hdecomp hpre hk
    unfold _MessageSerializer.validate
    rw [hdecomp, validateFields_missing pre rest k f msg hpre hk]
  · intro pre k f rest e hdecomp hpre hne hv
    unfold _MessageSerializer.validate
    rw [hdecomp, validateFields_invalid pre rest k f msg e hpre hne hv]
  · intro hf hadd kpre k krest hkeys hkpre hk
    rw [validate_after_fields ms msg (validateFields_ok ms.fields msg hf), hadd]
    simp only [Bool.false_eq_true, if_false]
    have hfind : (msg.map (fun p => p.1)).find?
        (fun k => ¬ ((ms.fields.map (fun p => p.1)).contains k ∨
          RESERVED_FIELDS.contains k)) = some k := by
      have hkeys' : msg.map (fun p => p.1) = kpre ++ k :: krest := by
        simpa using hkeys
      rw [hkeys', List.find?_append]
      have h1 : kpre.find?
          (fun k => ¬ ((ms.fields.map (fun p => p.1)).contains k ∨
            RESERVED_FIELDS.contains k)) = none := by
        rw [List.find?_eq_none]
        intro k' hk'
        simp only [decide_not, Bool.not_eq_true', Bool.not_eq_false, decide_eq_true_eq]
        exact hkpre k' hk'
      rw [h1]
      simp only [Option.none_or]
      rw [List.find?_cons_of_pos]
      simpa using hk
    rw [hfind]

/-- Witness for C8: a one-field schema validates a well-formed dictionary
cleanly; with the field missing the missing-field error names it; an extra
key raises the unexpected-field error when additional fields are not
allowed. -/
theorem c8_validate_witness :
    (⟨[("k1", BoundField.forValue "k1" (vInt 7) "")], false⟩ :
        _MessageSerializer).validate [("k1", vInt 7)] = .ok () ∧
    (⟨[("k1", BoundField.forValue "k1" (vInt 7) "")], false⟩ :
        _MessageSerializer).validate [] =
      .error ⟨"ValidationError", "Field " ++ "k1" ++ " is missing", some (.vStr "k1")⟩ ∧
    (⟨[("k1", BoundField.forValue "k1" (vInt 7) "")], false⟩ :
        _MessageSerializer).validate [("k1", vInt 7), ("zz", vInt 1)] =
      .error ⟨"ValidationError", "Unexpected field: " ++ "zz", some (.vStr "zz")⟩ := by
  refine ⟨?_, ?_, ?_⟩
  · exact (c8_validate _ _).1
      (fun p hp => by
        rcases List.mem_singleton.mp hp with rfl
        exact ⟨by decide, rfl⟩)
      (Or.inr (by decide))
  · exact (c8_validate _ _).2.1 [] "k1" (BoundField.forValue "k1" (vInt 7) "") []
      rfl (fun p hp => absurd hp (List.not_mem_nil p)) (by decide)
  · exact (c8_validate _ _).2.2.2
      (fun p hp => by
        rcases List.mem_singleton.mp hp with rfl
        exact ⟨by decide, rfl⟩)
      rfl ["k1"] "zz" [] (by decide) (by decide) (by decide)

/-- The schema of the C8 counterexample: `k1` constrained to the constant
7, `k2` to the constant "x", plus the `message_type` discriminator. -/
def c8exSer : Except JsErr _MessageSerializer :=
  mkMessageSerializer
    [BoundField.forValue "k1" (vInt 7) "",
     BoundField.forValue "k2" (.vStr "x") "",
     BoundField.forValue MESSAGE_TYPE_FIELD (.vStr "t") ""] false

/-- The dictionary of the C8 counterexample: `k1` present but invalid,
`k2` missing. -/
def c8exDict : Dict := [("k1", vInt 5), (MESSAGE_TYPE_FIELD, .vStr "t")]

/-- C8 counterexample: a schema field (`k2`) is absent from the
dictionary, yet `validate` does not throw the ValidationError naming the
missing key — it reports the earlier field `k1`'s validation failure
instead, so "throws a ValidationError naming the missing key if any schema
field is absent" fails as stated. -/
theorem c8_counterexample :
    ∃ s, c8exSer = .ok s ∧
      "k2" ∈ s.fields.map (fun p => p.1) ∧
      dget c8exDict "k2" = .vUndef ∧
      s.validate c8exDict =
        .error ⟨"ValidationError", "k1: Field must be 7", some (vInt 5)⟩ ∧
      (⟨"ValidationError", "k1: Field must be 7", some (vInt 5)⟩ : JsErr) ≠
        ⟨"ValidationError", "Field k2 is missing", some (.vStr "k2")⟩ := by
  refine ⟨_, rfl, by decide, by decide, rfl, by decide⟩


theorem keysNodup_nil : keysNodup ([] : Dict) := List.nodup_nil

theorem copy_copy (e : Dict) (hnd : keysNodup e) : dassign [] (dassign [] e) = e := by
  rw [dassign_nil_copy (dassign [] e) (keysNodup_dassign [] e keysNodup_nil),
      dassign_nil_copy e hnd]

theorem statusCount_append (xs ys : List Dict) (s : String) :
    statusCount (xs ++ ys) s = statusCount xs s + statusCount ys s := by
  simp [statusCount, List.filter_append]

theorem statusCount_single (m : Dict) (s : String) :
    statusCount [m] s = if dget m ACTION_STATUS_FIELD = .vStr s then 1 else 0 := by
  simp only [statusCount, List.filter]
  split <;> simp_all

theorem dget_frame (base : Dict) (t : Int) (u : String) (lvl : List JsNum)
    (k : String) (h1 : k ≠ TIMESTAMP_FIELD) (h2 : k ≠ TASK_UUID_FIELD)
    (h3 : k ≠ TASK_LEVEL_FIELD) :
    dget (dassign base
      [(TIMESTAMP_FIELD, vInt t), (TASK_UUID_FIELD, .vStr u),
       (TASK_LEVEL_FIELD, .vArr lvl)]) k = dget base k := by
  simp only [dassign_cons, dassign_nil]
  rw [dget_dset_ne _ TASK_LEVEL_FIELD k _ h3,
      dget_dset_ne _ TASK_UUID_FIELD k _ h2,
      dget_dset_ne _ TIMESTAMP_FIELD k _ h1]

theorem dget_ident (base : Dict) (u ty : String) (k : String)
    (h1 : k ≠ TASK_UUID_FIELD) (h2 : k ≠ ACTION_TYPE_FIELD) :
    dget (dassign base [(TASK_UUID_FIELD, .vStr u), (ACTION_TYPE_FIELD, .vStr ty)]) k =
      dget base k := by
  simp only [dassign_cons, dassign_nil]
  rw [dget_dset_ne _ ACTION_TYPE_FIELD k _ h2,
      dget_dset_ne _ TASK_UUID_FIELD k _ h1]

theorem writeMem_spec (m : Message) (w : MemWorld) (a : Action) (s : String) :
    statusCount ((m.writeMem w a).1).messages s =
      statusCount w.messages s +
        (if dget (dassign [] m.fields) ACTION_STATUS_FIELD = .vStr s then 1 else 0) ∧
    ((m.writeMem w a).2).finished = a.finished ∧
    ((m.writeMem w a).2).successFields = a.successFields := by
  refine ⟨?_, rfl, rfl⟩
  show statusCount (w.messages ++
    [dassign (dassign [] m.fields)
      [(TIMESTAMP_FIELD, vInt w.time), (TASK_UUID_FIELD, .vStr a.taskUuid),
       (TASK_LEVEL_FIELD, .vArr ((a.nextTaskLevel).1).level)]]) s = _
  rw [statusCount_append, statusCount_single,
      dget_frame _ _ _ _ ACTION_STATUS_FIELD (by decide) (by decide) (by decide)]

theorem start_spec (a : Action) (fields : Dict) (w : MemWorld) (s : String)
    (hnd : keysNodup fields) :
    statusCount ((a._start fields w).2).messages s =
      statusCount w.messages s + (if STARTED_STATUS = s then 1 else 0) ∧
    ((a._start fields w).1).finished = a.finished ∧
    ((a._start fields w).1).successFields = a.successFields := by
  have h2 : keysNodup (dassign (dset fields ACTION_STATUS_FIELD (.vStr STARTED_STATUS))
      [(TASK_UUID_FIELD, .vStr a.taskUuid), (ACTION_TYPE_FIELD, .vStr a.actionType)]) :=
    keysNodup_dassign _ _ (keysNodup_dset _ _ _ hnd)
  obtain ⟨hcount, hfin, hsf⟩ := writeMem_spec
    (Message.create
      (dassign (dset fields ACTION_STATUS_FIELD (.vStr STARTED_STATUS))
        [(TASK_UUID_FIELD, .vStr a.taskUuid), (ACTION_TYPE_FIELD, .vStr a.actionType)])
      (a.serializers.map (fun x => x.start))) w a s
  refine ⟨?_, hfin, hsf⟩
  rw [show ((a._start fields w).2) =
    ((Message.create
      (dassign (dset fields ACTION_STATUS_FIELD (.vStr STARTED_STATUS))
        [(TASK_UUID_FIELD, .vStr a.taskUuid), (ACTION_TYPE_FIELD, .vStr a.actionType)])
      (a.serializers.map (fun x => x.start))).writeMem w a).1 from rfl, hcount]
  congr 1
  show (if dget (dassign [] (dassign []
    (dassign (dset fields ACTION_STATUS_FIELD (.vStr STARTED_STATUS))
      [(TASK_UUID_FIELD, .vStr a.taskUuid), (ACTION_TYPE_FIELD, .vStr a.actionType)])))
    ACTION_STATUS_FIELD = .vStr s then 1 else 0) = _
  rw [copy_copy _ h2,
      dget_ident _ _ _ ACTION_STATUS_FIELD (by decide) (by decide),
      dget_dset_self]
  by_cases hs : STARTED_STATUS = s
  · rw [if_pos (by rw [hs]), if_pos hs]
  · rw [if_neg (fun hh => hs (by injection hh)), if_neg hs]


theorem finish_finished (a : Action) (err : Option JsErr) (w : MemWorld)
    (h : a.finished = true) : a.finish err w = (a, w) := by
  simp [Action.finish, h]

theorem finish_spec (a : Action) (err : Option JsErr) (w : MemWorld) (s : String)
    (hfin : a.finished = false) (hnd : keysNodup a.successFields) :
    statusCount ((a.finish err w).2).messages s =
      statusCount w.messages s +
        (if (match err with | none => SUCCEEDED_STATUS | some _ => FAILED_STATUS) = s
          then 1 else 0) ∧
    ((a.finish err w).1).finished = true ∧
    keysNodup ((a.finish err w).1).successFields := by
  unfold Action.finish
  rw [hfin]
  simp only [Bool.false_eq_true, if_false]
  cases err with
  | none =>
    have h2 : keysNodup (dassign (dset a.successFields ACTION_STATUS_FIELD
        (.vStr SUCCEEDED_STATUS))
        [(TASK_UUID_FIELD, .vStr a.taskUuid), (ACTION_TYPE_FIELD, .vStr a.actionType)]) :=
      keysNodup_dassign _ _ (keysNodup_dset _ _ _ hnd)
    obtain ⟨hcount, hfin', hsf⟩ := writeMem_spec
      (Message.create
        (dassign (dset a.successFields ACTION_STATUS_FIELD (.vStr SUCCEEDED_STATUS))
          [(TASK_UUID_FIELD, .vStr a.taskUuid), (ACTION_TYPE_FIELD, .vStr a.actionType)])
        (a.serializers.map (fun x => x.success))) w
      { a with finished := true,
               successFields := dassign (dset a.successFields ACTION_STATUS_FIELD
                  (.vStr SUCCEEDED_STATUS))
                 [(TASK_UUID_FIELD, .vStr a.taskUuid),
                  (ACTION_TYPE_FIELD, .vStr a.actionType)] } s
    refine ⟨?_, by rw [hfin'], by rw [hsf]; exact h2⟩
    rw [hcount]
    congr 1
    simp only [Message.create]
    simp only [copy_copy _ h2,
      dget_ident _ _ _ ACTION_STATUS_FIELD (by decide) (by decide),
      dget_dset_self]
    by_cases hs : SUCCEEDED_STATUS = s
    · rw [if_pos (by rw [hs]), if_pos hs]
    · rw [if_neg (fun hh => hs (by injection hh)), if_neg hs]
  | some e =>
    have h2 : keysNodup (dassign (dset (dset (dset [] EXCEPTION_FIELD (.vStr e.name))
        REASON_FIELD (.vStr e.render)) ACTION_STATUS_FIELD (.vStr FAILED_STATUS))
        [(TASK_UUID_FIELD, .vStr a.taskUuid), (ACTION_TYPE_FIELD, .vStr a.actionType)]) :=
      keysNodup_dassign _ _ (keysNodup_dset _ _ _ (keysNodup_dset _ _ _
        (keysNodup_dset _ _ _ keysNodup_nil)))
    obtain ⟨hcount, hfin', hsf⟩ := writeMem_spec
      (Message.create
        (dassign (dset (dset (dset [] EXCEPTION_FIELD (.vStr e.name))
          REASON_FIELD (.vStr e.render)) ACTION_STATUS_FIELD (.vStr FAILED_STATUS))
          [(TASK_UUID_FIELD, .vStr a.taskUuid), (ACTION_TYPE_FIELD, .vStr a.actionType)])
        (a.serializers.map (fun x => x.failure))) w
      { a with finished := true } s
    refine ⟨?_, by rw [hfin'], by rw [hsf]; exact hnd⟩
    rw [hcount]
    congr 1
    simp only [Message.create]
    simp only [copy_copy _ h2,
      dget_ident _ _ _ ACTION_STATUS_FIELD (by decide) (by decide),
      dget_dset_self]
    by_cases hs : FAILED_STATUS = s
    · rw [if_pos (by rw [hs]), if_pos hs]
    · rw [if_neg (fun hh => hs (by injection hh)), if_neg hs]

theorem log_spec (f : Dict) (w : MemWorld) (a : Action) (s : String)
    (hf : dget f ACTION_STATUS_FIELD = .vUndef) (hnd : keysNodup f) :
    statusCount ((Message.log f w a).1).messages s = statusCount w.messages s ∧
    ((Message.log f w a).2).finished = a.finished ∧
    ((Message.log f w a).2).successFields = a.successFields := by
  obtain ⟨hcount, hfin, hsf⟩ := writeMem_spec (Message.create f none) w a s
  refine ⟨?_, hfin, hsf⟩
  show statusCount ((Message.create f none).writeMem w a).1.messages s = _
  rw [hcount]
  simp only [Message.create]
  simp only [copy_copy _ hnd, hf]
  simp


theorem runCmds_cons_add (f : Dict) (cs : List FCmd) (a : Action) (w : MemWorld) :
    runCmds (FCmd.addSuccess f :: cs) a w = runCmds cs (a.addSuccessFields f) w := rfl

theorem runCmds_cons_fin (e : Option JsErr) (cs : List FCmd) (a : Action) (w : MemWorld) :
    runCmds (FCmd.finishCmd e :: cs) a w =
      runCmds cs (a.finish e w).1 (a.finish e w).2 := rfl

theorem runCmds_cons_log (f : Dict) (cs : List FCmd) (a : Action) (w : MemWorld) :
    runCmds (FCmd.logMsg f :: cs) a w =
      runCmds cs ((Message.log f w a).2) ((Message.log f w a).1) := rfl

theorem selfFinishes_cons (c : FCmd) (cs : List FCmd) :
    FB.selfFinishes (c :: cs) =
      ((match c with | FCmd.finishCmd _ => true | _ => false) || FB.selfFinishes cs) := by
  simp [FB.selfFinishes, List.any_cons]

theorem runCmds_spec (cs : List FCmd) (a : Action) (w : MemWorld)
    (hnd : keysNodup a.successFields)
    (hlog : ∀ f, FCmd.logMsg f ∈ cs →
      dget f ACTION_STATUS_FIELD = .vUndef ∧ keysNodup f) :
    ((runCmds cs a w).1).finished = (a.finished || FB.selfFinishes cs) ∧
    keysNodup ((runCmds cs a w).1).successFields ∧
    statusCount ((runCmds cs a w).2).messages STARTED_STATUS =
      statusCount w.messages STARTED_STATUS ∧
    terminalCount ((runCmds cs a w).2).messages =
      terminalCount w.messages +
        (if a.finished = false ∧ FB.selfFinishes cs = true then 1 else 0) ∧
    (FB.selfFinishes cs = false →
      statusCount ((runCmds cs a w).2).messages FAILED_STATUS =
        statusCount w.messages FAILED_STATUS) := by
  induction cs generalizing a w with
  | nil =>
    refine ⟨by simp [runCmds, FB.selfFinishes], hnd, rfl, ?_, fun _ => rfl⟩
    simp [runCmds, FB.selfFinishes]
  | cons c cs ih =>
    cases c with
    | addSuccess f =>
      rw [runCmds_cons_add]
      have hnd' : keysNodup ((a.addSuccessFields f).successFields) :=
        keysNodup_dassign _ _ hnd
      obtain ⟨h1, h2, h3, h4, h5⟩ := ih (a.addSuccessFields f) w hnd'
        (fun g hg => hlog g (List.mem_cons_of_mem _ hg))
      refine ⟨?_, h2, h3, ?_, fun hsf => h5 (by simpa [selfFinishes_cons] using hsf)⟩
      · rw [h1, selfFinishes_cons]
        simp [Action.addSuccessFields]
      · rw [h4, selfFinishes_cons]
        simp [Action.addSuccessFields]
    | logMsg f =>
      rw [runCmds_cons_log]
      obtain ⟨hgf, hgnd⟩ := hlog f (List.mem_cons_self _ _)
      obtain ⟨hc, hfin, hsf⟩ := log_spec f w a STARTED_STATUS hgf hgnd
      obtain ⟨hcS, _, _⟩ := log_spec f w a SUCCEEDED_STATUS hgf hgnd
      obtain ⟨hcF, _, _⟩ := log_spec f w a FAILED_STATUS hgf hgnd
      obtain ⟨h1, h2, h3, h4, h5⟩ := ih ((Message.log f w a).2) ((Message.log f w a).1)
        (by rw [hsf]; exact hnd)
        (fun g hg => hlog g (List.mem_cons_of_mem _ hg))
      refine ⟨?_, h2, ?_, ?_, ?_⟩
      · rw [h1, hfin, selfFinishes_cons]
        simp
      · rw [h3, hc]
      · rw [h4, hfin, selfFinishes_cons]
        unfold terminalCount
        rw [hcS, hcF]
        simp
      · intro hsfin
        rw [selfFinishes_cons] at hsfin
        simp only [Bool.or_eq_false_iff] at hsfin
        rw [h5 hsfin.2, hcF]
    | finishCmd e =>
      rw [runCmds_cons_fin]
      cases hfin : a.finished with
      | true =>
        rw [finish_finished a e w hfin]
        obtain ⟨h1, h2, h3, h4, h5⟩ := ih a w hnd
          (fun g hg => hlog g (List.mem_cons_of_mem _ hg))
        refine ⟨?_, h2, h3, ?_, fun _ => h5 ?_⟩
        · rw [h1, hfin, selfFinishes_cons]
          simp
        · rw [h4, hfin]
          simp
        · simp_all [selfFinishes_cons]
      | false =>
        cases e with
        | none =>
          obtain ⟨hcS, hfin', hnd'⟩ := finish_spec a none w SUCCEEDED_STATUS hfin hnd
          obtain ⟨hcF, _, _⟩ := finish_spec a none w FAILED_STATUS hfin hnd
          obtain ⟨hcT, _, _⟩ := finish_spec a none w STARTED_STATUS hfin hnd
          rw [if_pos rfl] at hcS
          rw [if_neg (by decide)] at hcF
          rw [if_neg (by decide)] at hcT
          obtain ⟨h1, h2, h3, h4, h5⟩ := ih (a.finish none w).1 (a.finish none w).2 hnd'
            (fun g hg => hlog g (List.mem_cons_of_mem _ hg))
          refine ⟨?_, h2, ?_, ?_, ?_⟩
          · rw [h1, hfin']
            simp [selfFinishes_cons, hfin]
          · rw [h3, hcT]
            omega
          · rw [h4, hfin']
            unfold terminalCount
            rw [hcS, hcF]
            simp [selfFinishes_cons, hfin]
            omega
          · intro hsfin
            rw [selfFinishes_cons] at hsfin
            simp at hsfin
        | some err =>
          obtain ⟨hcS, hfin', hnd'⟩ := finish_spec a (some err) w SUCCEEDED_STATUS hfin hnd
          obtain ⟨hcF, _, _⟩ := finish_spec a (some err) w FAILED_STATUS hfin hnd
          obtain ⟨hcT, _, _⟩ := finish_spec a (some err) w STARTED_STATUS hfin hnd
          have hm : (match (some err : Option JsErr) with
              | none => SUCCEEDED_STATUS
              | some _ => FAILED_STATUS) = FAILED_STATUS := rfl
          rw [hm] at hcS hcF hcT
          rw [if_neg (by decide)] at hcS
          rw [if_pos rfl] at hcF
          rw [if_neg (by decide)] at hcT
          obtain ⟨h1, h2, h3, h4, h5⟩ := ih (a.finish (some err) w).1
            (a.finish (some err) w).2 hnd'
            (fun g hg => hlog g (List.mem_cons_of_mem _ hg))
          refine ⟨?_, h2, ?_, ?_, ?_⟩
          · rw [h1, hfin']
            simp [selfFinishes_cons, hfin]
          · rw [h3, hcT]
            omega
          · rw [h4, hfin']
            unfold terminalCount
            rw [hcS, hcF]
            simp [selfFinishes_cons, hfin]
            omega
          · intro hsfin
            rw [selfFinishes_cons] at hsfin
            simp at hsfin


theorem withAction_eq (a : Action) (fb : FB) (w : MemWorld) :
    withAction a fb w =
      (((runCmds fb.cmds a w).1.finish fb.outcome (runCmds fb.cmds a w).2).1,
       ((runCmds fb.cmds a w).1.finish fb.outcome (runCmds fb.cmds a w).2).2,
       fb.outcome) := by
  cases h : fb.outcome with
  | none => simp only [withAction, h]
  | some e => simp only [withAction, h]

/-- The claim's protocol: start a fresh root action (as the `ActionType`
call with no ambient action does) and run the wrapped function under
`withAction`. -/
def startTaskThenWith (w0 : MemWorld) (aty : String) (fields : Dict)
    (sers : Option ActionSerializers) (fb : FB) : Action × MemWorld × Option JsErr :=
  withAction (startTask w0 aty fields sers).1 fb (startTask w0 aty fields sers).2

/-- C1 (amended): starting an action and running a function under
`withAction` writes exactly one start-status message and exactly one
terminal (succeeded or failed) message, whatever the wrapped function does
and whether it returns or throws; a thrown error is re-raised unchanged as
`withAction`'s outcome; when the wrapped function throws and did not call
`finish` itself, the terminal message is the failure message; and a
further `finish` on the returned action writes nothing. The wrapped
function is any sequence of `addSuccessFields`, `finish` and message-log
steps whose logged dictionaries are well-formed and carry no
`action_status` field. -/
theorem c1_withAction (w0 : MemWorld) (aty : String) (fields : Dict)
    (sers : Option ActionSerializers) (fb : FB)
    (hnd : keysNodup fields)
    (hlog : ∀ f, FCmd.logMsg f ∈ fb.cmds →
      dget f ACTION_STATUS_FIELD = .vUndef ∧ keysNodup f) :
    statusCount (startTaskThenWith w0 aty fields sers fb).2.1.messages STARTED_STATUS =
      statusCount w0.messages STARTED_STATUS + 1 ∧
    terminalCount (startTaskThenWith w0 aty fields sers fb).2.1.messages =
      terminalCount w0.messages + 1 ∧
    (startTaskThenWith w0 aty fields sers fb).2.2 = fb.outcome ∧
    (FB.selfFinishes fb.cmds = false → ∀ e, fb.outcome = some e →
      statusCount (startTaskThenWith w0 aty fields sers fb).2.1.messages FAILED_STATUS =
        statusCount w0.messages FAILED_STATUS + 1) ∧
    (∀ err w', ((startTaskThenWith w0 aty fields sers fb).1).finish err w' =
      ((startTaskThenWith w0 aty fields sers fb).1, w')) := by
  have ha0fin : ((startTask w0 aty fields sers).1).finished = false := rfl
  have ha0sf : ((startTask w0 aty fields sers).1).successFields = [] := rfl
  obtain ⟨hsT, _, _⟩ := start_spec (Action.make (freshUuid w0.uuidCtr) ⟨[]⟩ aty sers)
    fields { w0 with uuidCtr := w0.uuidCtr + 1 } STARTED_STATUS hnd
  obtain ⟨hsS, _, _⟩ := start_spec (Action.make (freshUuid w0.uuidCtr) ⟨[]⟩ aty sers)
    fields { w0 with uuidCtr := w0.uuidCtr + 1 } SUCCEEDED_STATUS hnd
  obtain ⟨hsF, _, _⟩ := start_spec (Action.make (freshUuid w0.uuidCtr) ⟨[]⟩ aty sers)
    fields { w0 with uuidCtr := w0.uuidCtr + 1 } FAILED_STATUS hnd
  rw [if_pos rfl] at hsT
  rw [if_neg (by decide)] at hsS
  rw [if_neg (by decide)] at hsF
  obtain ⟨h1, h2, h3, h4, h5⟩ := runCmds_spec fb.cmds (startTask w0 aty fields sers).1
    (startTask w0 aty fields sers).2 (by rw [ha0sf]; exact keysNodup_nil) hlog
  rw [ha0fin, Bool.false_or] at h1
  have hw1T : statusCount ((startTask w0 aty fields sers).2).messages STARTED_STATUS =
      statusCount w0.messages STARTED_STATUS + 1 := hsT
  have hw1S : statusCount ((startTask w0 aty fields sers).2).messages SUCCEEDED_STATUS =
      statusCount w0.messages SUCCEEDED_STATUS := by
    rw [show ((startTask w0 aty fields sers).2) =
      ((Action.make (freshUuid w0.uuidCtr) ⟨[]⟩ aty sers)._start fields
        { w0 with uuidCtr := w0.uuidCtr + 1 }).2 from rfl, hsS]
    exact Nat.add_zero _
  have hw1F : statusCount ((startTask w0 aty fields sers).2).messages FAILED_STATUS =
      statusCount w0.messages FAILED_STATUS := by
    rw [show ((startTask w0 aty fields sers).2) =
      ((Action.make (freshUuid w0.uuidCtr) ⟨[]⟩ aty sers)._start fields
        { w0 with uuidCtr := w0.uuidCtr + 1 }).2 from rfl, hsF]
    exact Nat.add_zero _
  unfold startTaskThenWith
  rw [withAction_eq]
  rcases Bool.eq_false_or_eq_true (FB.selfFinishes fb.cmds) with hselff | hselff
  · rw [hselff] at h1
    rw [finish_finished _ fb.outcome _ h1]
    refine ⟨?_, ?_, rfl, ?_, ?_⟩
    · rw [h3, hw1T]
    · rw [h4, ha0fin, hselff]
      unfold terminalCount
      rw [hw1S, hw1F]
      simp
    · intro hc
      rw [hselff] at hc
      cases hc
    · intro err w'
      exact finish_finished _ err w' h1
  · rw [hselff] at h1
    obtain ⟨hfS, hffin, _⟩ := finish_spec (runCmds fb.cmds (startTask w0 aty fields sers).1
      (startTask w0 aty fields sers).2).1 fb.outcome
      (runCmds fb.cmds (startTask w0 aty fields sers).1
        (startTask w0 aty fields sers).2).2 SUCCEEDED_STATUS h1 h2
    obtain ⟨hfF, _, _⟩ := finish_spec (runCmds fb.cmds (startTask w0 aty fields sers).1
      (startTask w0 aty fields sers).2).1 fb.outcome
      (runCmds fb.cmds (startTask w0 aty fields sers).1
        (startTask w0 aty fields sers).2).2 FAILED_STATUS h1 h2
    obtain ⟨hfT, _, _⟩ := finish_spec (runCmds fb.cmds (startTask w0 aty fields sers).1
      (startTask w0 aty fields sers).2).1 fb.outcome
      (runCmds fb.cmds (startTask w0 aty fields sers).1
        (startTask w0 aty fields sers).2).2 STARTED_STATUS h1 h2
    refine ⟨?_, ?_, rfl, ?_, ?_⟩
    · rw [hfT, h3, hw1T]
      have hz : (if (match fb.outcome with
          | none => SUCCEEDED_STATUS
          | some _ => FAILED_STATUS) = STARTED_STATUS then (1 : Nat) else 0) = 0 := by
        cases fb.outcome with
        | none => decide
        | some e =>
          rw [show (match (some e : Option JsErr) with
            | none => SUCCEEDED_STATUS
            | some _ => FAILED_STATUS) = FAILED_STATUS from rfl]
          decide
      omega
    · unfold terminalCount
      rw [hfS, hfF]
      unfold terminalCount at h4
      rw [ha0fin, hselff] at h4
      simp only [Bool.false_eq_true, and_false, if_false] at h4
      have hone : (if (match fb.outcome with
            | none => SUCCEEDED_STATUS
            | some _ => FAILED_STATUS) = SUCCEEDED_STATUS then (1 : Nat) else 0) +
          (if (match fb.outcome with
            | none => SUCCEEDED_STATUS
            | some _ => FAILED_STATUS) = FAILED_STATUS then (1 : Nat) else 0) = 1 := by
        cases fb.outcome with
        | none => decide
        | some e =>
          rw [show (match (some e : Option JsErr) with
            | none => SUCCEEDED_STATUS
            | some _ => FAILED_STATUS) = FAILED_STATUS from rfl]
          decide
      rw [hw1S, hw1F] at h4
      omega
    · intro _ e he
      rw [hfF, he]
      rw [show (match (some e : Option JsErr) with
        | none => SUCCEEDED_STATUS
        | some _ => FAILED_STATUS) = FAILED_STATUS from rfl]
      rw [if_pos rfl, h5 hselff, hw1F]
    · intro err w'
      exact finish_finished _ err w' hffin


/-- Witness for C1 at a concrete behaviour: the wrapped function merges a
success field, logs one plain message and then throws; exactly one start
and one terminal message result, the failure message is recorded and the
error propagates unchanged. -/
theorem c1_withAction_witness :
    statusCount (startTaskThenWith initW "sys:do" [("key", vInt 123)] none
        ⟨[FCmd.addSuccess [("r", .vStr "ok")], FCmd.logMsg [("x", vInt 1)]],
         some ⟨"Error", "Nope", none⟩⟩).2.1.messages STARTED_STATUS =
      statusCount initW.messages STARTED_STATUS + 1 ∧
    terminalCount (startTaskThenWith initW "sys:do" [("key", vInt 123)] none
        ⟨[FCmd.addSuccess [("r", .vStr "ok")], FCmd.logMsg [("x", vInt 1)]],
         some ⟨"Error", "Nope", none⟩⟩).2.1.messages =
      terminalCount initW.messages + 1 ∧
    (startTaskThenWith initW "sys:do" [("key", vInt 123)] none
        ⟨[FCmd.addSuccess [("r", .vStr "ok")], FCmd.logMsg [("x", vInt 1)]],
         some ⟨"Error", "Nope", none⟩⟩).2.2 = some ⟨"Error", "Nope", none⟩ ∧
    statusCount (startTaskThenWith initW "sys:do" [("key", vInt 123)] none
        ⟨[FCmd.addSuccess [("r", .vStr "ok")], FCmd.logMsg [("x", vInt 1)]],
         some ⟨"Error", "Nope", none⟩⟩).2.1.messages FAILED_STATUS =
      statusCount initW.messages FAILED_STATUS + 1 := by
  obtain ⟨h1, h2, h3, h4, _⟩ := c1_withAction initW "sys:do" [("key", vInt 123)] none
    ⟨[FCmd.addSuccess [("r", .vStr "ok")], FCmd.logMsg [("x", vInt 1)]],
     some ⟨"Error", "Nope", none⟩⟩
    (by decide)
    (fun f hf => by
      rcases List.mem_cons.mp hf with h | h
      · cases h
      · have h' := List.mem_singleton.mp h
        injection h' with h2
        subst h2
        exact ⟨by decide, by decide⟩)
  exact ⟨h1, h2, h3, h4 (by decide) ⟨"Error", "Nope", none⟩ rfl⟩

/-- C1 counterexample: a wrapped function that calls `finish()` itself and
then throws. The error is still re-raised to `withAction`'s caller, but no
failure message is recorded — the single terminal message has status
`succeeded` — so "the identical error object is re-raised ... after the
failure message is recorded" fails for this function. -/
theorem c1_counterexample :
    (startTaskThenWith initW "sys:me" [] none
        ⟨[FCmd.finishCmd none], some ⟨"Error", "Nope", none⟩⟩).2.2 =
      some ⟨"Error", "Nope", none⟩ ∧
    statusCount (startTaskThenWith initW "sys:me" [] none
        ⟨[FCmd.finishCmd none], some ⟨"Error", "Nope", none⟩⟩).2.1.messages
      FAILED_STATUS = 0 ∧
    statusCount (startTaskThenWith initW "sys:me" [] none
        ⟨[FCmd.finishCmd none], some ⟨"Error", "Nope", none⟩⟩).2.1.messages
      SUCCEEDED_STATUS = 1 ∧
    statusCount (startTaskThenWith initW "sys:me" [] none
        ⟨[FCmd.finishCmd none], some ⟨"Error", "Nope", none⟩⟩).2.1.messages
      STARTED_STATUS = 1 := by
  decide


/-- The `key` field of the claim's `ActionType` schema
(`fields({key: 'number'})`). -/
def KEY_BF : BoundField := ⟨"key", JField.forTypesOk ["number"] ""⟩

/-- The `result` field of the claim's `ActionType` schema
(`fields({result: 'string'})`). -/
def RESULT_BF : BoundField := ⟨"result", JField.forTypesOk ["string"] ""⟩

/-- `ActionType('app:do', [KEY], [RESULT])` of the claim's scenario. -/
def APP_DO : Option ATModel := (mkActionType "app:do" [KEY_BF] [RESULT_BF]).toOption

/-- The serializers the `app:do` action type binds to its actions. -/
def appDoSers : Option ActionSerializers := APP_DO.map (fun t => t.serializers)

/-- `n` consecutive `Message.log({})` calls under the action. -/
def directLogs : Nat → Action → MemWorld → Action × MemWorld
  | 0, a, w => (a, w)
  | n + 1, a, w => directLogs n ((Message.log [] w a).2) ((Message.log [] w a).1)

/-- The claim's root-action run: `startTask`, then `n` directly-logged
messages, then `finish()`. -/
def c2run (n : Nat) : Action × MemWorld :=
  ((directLogs n (startTask initW "app:do" [("key", vInt 123)] appDoSers).1
      (startTask initW "app:do" [("key", vInt 123)] appDoSers).2).1.finish none
    (directLogs n (startTask initW "app:do" [("key", vInt 123)] appDoSers).1
      (startTask initW "app:do" [("key", vInt 123)] appDoSers).2).2)

/-- The claim's two-message scenario:
`withAction(ACTION({key: 123}), action => action.addSuccessFields({result: 'ok'}))`
with no ambient action, against a recording logger. -/
def c2scn : Action × MemWorld × Option JsErr :=
  withAction (startAction none initW "app:do" [("key", vInt 123)] appDoSers).1
    ⟨[FCmd.addSuccess [("result", .vStr "ok")]], none⟩
    (startAction none initW "app:do" [("key", vInt 123)] appDoSers).2.2

theorem directLogs_spec (k : Nat) (a : Action) (w : MemWorld) (c : Int)
    (hlc : a.lastChild = some ⟨[.int c]⟩) :
    (directLogs k a w).1 = { a with lastChild := some ⟨[.int (c + k)]⟩ } ∧
    (directLogs k a w).2.messages = w.messages ++
      (List.range k).map (fun (j : Nat) =>
        [(TIMESTAMP_FIELD, vInt w.time), (TASK_UUID_FIELD, .vStr a.taskUuid),
         (TASK_LEVEL_FIELD, .vArr [.int (c + (j : Int) + 1)])]) ∧
    (directLogs k a w).2.time = w.time := by
  induction k generalizing a w c with
  | zero =>
    refine ⟨?_, by simp [directLogs], rfl⟩
    simp only [directLogs]
    cases a with
    | mk tu ty tl lc fin sf sers =>
      simp only [Action.lastChild] at hlc
      rw [hlc]
      simp
  | succ k ih =>
    obtain ⟨tu, ty, tl, lc, fin, sf, sers⟩ := a
    simp only [Action.lastChild] at hlc
    subst hlc
    have hstep1 : (Message.log [] w
        ⟨tu, ty, tl, some ⟨[.int c]⟩, fin, sf, sers⟩).2 =
        ⟨tu, ty, tl, some ⟨[.int (c + 1)]⟩, fin, sf, sers⟩ := rfl
    have hstep2 : (Message.log [] w
        ⟨tu, ty, tl, some ⟨[.int c]⟩, fin, sf, sers⟩).1.messages =
        w.messages ++
          [[(TIMESTAMP_FIELD, vInt w.time), (TASK_UUID_FIELD, .vStr tu),
            (TASK_LEVEL_FIELD, .vArr [.int (c + 1)])]] := rfl
    have hstep3 : (Message.log [] w
        ⟨tu, ty, tl, some ⟨[.int c]⟩, fin, sf, sers⟩).1.time = w.time := rfl
    rw [show directLogs (k + 1) ⟨tu, ty, tl, some ⟨[.int c]⟩, fin, sf, sers⟩ w =
      directLogs k (Message.log [] w ⟨tu, ty, tl, some ⟨[.int c]⟩, fin, sf, sers⟩).2
        (Message.log [] w ⟨tu, ty, tl, some ⟨[.int c]⟩, fin, sf, sers⟩).1 from rfl]
    rw [hstep1]
    obtain ⟨ih1, ih2, ih3⟩ := ih
      ⟨tu, ty, tl, some ⟨[.int (c + 1)]⟩, fin, sf, sers⟩
      (Message.log [] w ⟨tu, ty, tl, some ⟨[.int c]⟩, fin, sf, sers⟩).1
      (c + 1) rfl
    refine ⟨?_, ?_, by rw [ih3, hstep3]⟩
    · rw [ih1]
      have harith : c + 1 + (k : Int) = c + ((k + 1 : Nat) : Int) := by push_cast; ring
      rw [harith]
    · rw [ih2, hstep2, hstep3]
      rw [List.append_assoc]
      congr 1
      rw [List.range_succ_eq_map, List.map_cons, List.map_map]
      have h0 : c + ((0 : Nat) : Int) + 1 = c + 1 := by push_cast; ring
      rw [h0, List.singleton_append]
      congr 1
      apply List.map_congr_left
      intro j _
      simp only [Function.comp]
      have hj : c + ((j + 1 : Nat) : Int) + 1 = c + 1 + (j : Int) + 1 := by push_cast; ring
      rw [hj]


theorem dget_frame3 (x y z : JsValue) :
    dget [(TIMESTAMP_FIELD, x), (TASK_UUID_FIELD, y), (TASK_LEVEL_FIELD, z)]
      TASK_LEVEL_FIELD = z := rfl

theorem dget_finish5 (v w x y z : JsValue) :
    dget [(ACTION_STATUS_FIELD, v), (TASK_UUID_FIELD, w), (ACTION_TYPE_FIELD, x),
          (TIMESTAMP_FIELD, y), (TASK_LEVEL_FIELD, z)] TASK_LEVEL_FIELD = z := rfl

theorem c2_start_msgs :
    (startTask initW "app:do" [("key", vInt 123)] appDoSers).2.messages =
      [[("key", vInt 123), (ACTION_STATUS_FIELD, .vStr STARTED_STATUS),
        (TASK_UUID_FIELD, .vStr "uuid-0"), (ACTION_TYPE_FIELD, .vStr "app:do"),
        (TIMESTAMP_FIELD, vInt 0), (TASK_LEVEL_FIELD, .vArr [.int 1])]] := rfl

theorem c2_finish_msgs (n : Nat) (wf : MemWorld) :
    ((⟨"uuid-0", "app:do", ⟨[]⟩, some ⟨[.int (1 + (n : Int))]⟩, false, [],
        appDoSers⟩ : Action).finish none wf).2.messages = wf.messages ++
      [[(ACTION_STATUS_FIELD, .vStr SUCCEEDED_STATUS),
        (TASK_UUID_FIELD, .vStr "uuid-0"), (ACTION_TYPE_FIELD, .vStr "app:do"),
        (TIMESTAMP_FIELD, vInt wf.time),
        (TASK_LEVEL_FIELD, .vArr [.int (1 + (n : Int) + 1)])]] := rfl

/-- C2: a root action (no parent in the execution context) writes its start
message at task level `[1]` and every subsequent message through the
action — `n` directly-logged messages, then `finish` — at `[2], [3], ...`:
message `i` (0-based) carries task level `[i + 1]`. In the two-message
`withAction(ACTION({key: 123}), a => a.addSuccessFields({result: 'ok'}))`
scenario the recording logger holds exactly two entries: entry 0 with
status `started`, `key = 123`, level `[1]`; entry 1 with status
`succeeded`, `result = 'ok'`, level `[2]`; both share the task uuid and
have action type `app:do`. -/
theorem c2_task_levels (n : Nat) :
    (c2run n).2.messages.length = n + 2 ∧
    (∀ i, i < n + 2 →
      dget ((c2run n).2.messages.getD i []) TASK_LEVEL_FIELD =
        .vArr [.int ((i : Int) + 1)]) ∧
    c2scn.2.1.messages.length = 2 ∧
    dget (c2scn.2.1.messages.getD 0 []) ACTION_STATUS_FIELD = .vStr STARTED_STATUS ∧
    dget (c2scn.2.1.messages.getD 0 []) "key" = vInt 123 ∧
    dget (c2scn.2.1.messages.getD 0 []) TASK_LEVEL_FIELD = .vArr [.int 1] ∧
    dget (c2scn.2.1.messages.getD 1 []) ACTION_STATUS_FIELD = .vStr SUCCEEDED_STATUS ∧
    dget (c2scn.2.1.messages.getD 1 []) "result" = .vStr "ok" ∧
    dget (c2scn.2.1.messages.getD 1 []) TASK_LEVEL_FIELD = .vArr [.int 2] ∧
    dget (c2scn.2.1.messages.getD 0 []) TASK_UUID_FIELD =
      dget (c2scn.2.1.messages.getD 1 []) TASK_UUID_FIELD ∧
    dget (c2scn.2.1.messages.getD 0 []) TASK_UUID_FIELD ≠ .vUndef ∧
    dget (c2scn.2.1.messages.getD 0 []) ACTION_TYPE_FIELD = .vStr "app:do" ∧
    dget (c2scn.2.1.messages.getD 1 []) ACTION_TYPE_FIELD = .vStr "app:do" := by
  obtain ⟨hd1, hd2, hd3⟩ := directLogs_spec n
    (startTask initW "app:do" [("key", vInt 123)] appDoSers).1
    (startTask initW "app:do" [("key", vInt 123)] appDoSers).2 1 rfl
  have haf : (directLogs n (startTask initW "app:do" [("key", vInt 123)] appDoSers).1
      (startTask initW "app:do" [("key", vInt 123)] appDoSers).2).1 =
      ⟨"uuid-0", "app:do", ⟨[]⟩, some ⟨[.int (1 + (n : Int))]⟩, false, [], appDoSers⟩ := by
    rw [hd1]
    rfl
  have hmsgs : (c2run n).2.messages =
      ([[("key", vInt 123), (ACTION_STATUS_FIELD, .vStr STARTED_STATUS),
         (TASK_UUID_FIELD, .vStr "uuid-0"), (ACTION_TYPE_FIELD, .vStr "app:do"),
         (TIMESTAMP_FIELD, vInt 0), (TASK_LEVEL_FIELD, .vArr [.int 1])]] ++
       (List.range n).map (fun (j : Nat) =>
         [(TIMESTAMP_FIELD, vInt 0), (TASK_UUID_FIELD, .vStr "uuid-0"),
          (TASK_LEVEL_FIELD, .vArr [.int (1 + (j : Int) + 1)])])) ++
      [[(ACTION_STATUS_FIELD, .vStr SUCCEEDED_STATUS),
        (TASK_UUID_FIELD, .vStr "uuid-0"), (ACTION_TYPE_FIELD, .vStr "app:do"),
        (TIMESTAMP_FIELD, vInt 0),
        (TASK_LEVEL_FIELD, .vArr [.int (1 + (n : Int) + 1)])]] := by
    show ((directLogs n (startTask initW "app:do" [("key", vInt 123)] appDoSers).1
      (startTask initW "app:do" [("key", vInt 123)] appDoSers).2).1.finish none
      (directLogs n (startTask initW "app:do" [("key", vInt 123)] appDoSers).1
        (startTask initW "app:do" [("key", vInt 123)] appDoSers).2).2).2.messages = _
    rw [haf, c2_finish_msgs n _, hd2, c2_start_msgs, hd3]
    rfl
  refine ⟨?_, ?_, by decide, by decide, by decide, by decide, by decide, by decide,
    by decide, by decide, by decide, by decide, by decide⟩
  · rw [hmsgs]
    simp
  · intro i hi
    rw [hmsgs, List.append_assoc, List.singleton_append]
    match i with
    | 0 =>
      rw [List.getD_cons_zero]
      decide
    | Nat.succ i =>
      rw [List.getD_cons_succ]
      rcases Nat.lt_or_ge i n with hin | hin
      · rw [List.getD_eq_getElem?_getD, List.getElem?_append_left (by simpa using hin)]
        rw [List.getElem?_map, List.getElem?_range hin]
        simp only [Option.map_some', Option.getD_some]
        rw [dget_frame3]
        congr 3
        push_cast
        ring
      · have hieq : i = n := by omega
        subst hieq
        rw [List.getD_eq_getElem?_getD,
          List.getElem?_append_right (by simp), List.length_map, List.length_range]
        simp only [Nat.sub_self, List.getElem?_cons_zero, Option.getD_some]
        rw [dget_finish5]
        congr 3
        push_cast
        ring


/-- Witness for C2 at `n = 1`: three messages, and the third (the finish
message) carries task level `[3]`. -/
theorem c2_task_levels_witness :
    (c2run 1).2.messages.length = 1 + 2 ∧
    dget ((c2run 1).2.messages.getD 2 []) TASK_LEVEL_FIELD = .vArr [.int 3] := by
  obtain ⟨h1, h2, _⟩ := c2_task_levels 1
  refine ⟨h1, ?_⟩
  have h := h2 2 (by decide)
  rw [show (((2 : Nat) : Int) + 1) = 3 by norm_num] at h
  exact h


theorem splitChars_ne_nil (sep : Char) : ∀ l, splitChars sep l ≠ []
  | [] => by simp [splitChars]
  | c :: cs => by
    simp only [splitChars]
    cases h : splitChars sep cs with
    | nil => simp
    | cons g gs => by_cases hc : c = sep <;> simp [hc]

theorem splitChars_no_sep (sep : Char) (l : List Char) (h : sep ∉ l) :
    splitChars sep l = [l] := by
  induction l with
  | nil => rfl
  | cons c cs ih =>
    have hc : ¬ (c = sep) := fun he => h (he ▸ List.mem_cons_self c cs)
    have ih' := ih (fun hm => h (List.mem_cons_of_mem c hm))
    simp [splitChars, ih', hc]

theorem splitChars_append (sep : Char) (xs ys : List Char) (hxs : sep ∉ xs) :
    splitChars sep (xs ++ sep :: ys) = xs :: splitChars sep ys := by
  induction xs with
  | nil =>
    simp only [List.nil_append, splitChars]
    cases h : splitChars sep ys with
    | nil => exact absurd h (splitChars_ne_nil sep ys)
    | cons g gs => simp
  | cons c cs ih =>
    have hc : ¬ (c = sep) := fun he => hxs (he ▸ List.mem_cons_self c cs)
    have ih' := ih (fun hm => hxs (List.mem_cons_of_mem c hm))
    simp only [List.cons_append, splitChars, List.append_eq]
    rw [ih']
    simp [hc]

/-- C4: for an action at task level `[3, 4]` with no child level allocated
yet, `serializeTaskId()` consumes a child-level slot and returns
`uuid@/3/4/1`; `Action.continueTask` on that string starts a new action
with the same `task_uuid`, the reserved remote action type, and a start
message at task level `[3, 4, 1, 1]`; the original action's next
allocation then yields `[3, 4, 2]`, so remote levels cannot collide with
local ones. -/
theorem c4_continuation (uuid : String) (h : '@' ∉ uuid.data) :
    ((Action.make uuid ⟨[.int 3, .int 4]⟩ "mytype" none).serializeTaskId).1 =
      uuid ++ "@/3/4/1" ∧
    (((Action.make uuid ⟨[.int 3, .int 4]⟩ "mytype" none).serializeTaskId).2.nextTaskLevel).1 =
      ⟨[.int 3, .int 4, .int 2]⟩ ∧
    ∃ a2 w', Action.continueTask
        (((Action.make uuid ⟨[.int 3, .int 4]⟩ "mytype" none).serializeTaskId).1) initW =
        some (a2, w') ∧
      a2.taskUuid = uuid ∧
      a2.actionType = "eliot_js:remote_task" ∧
      w'.messages.length = 1 ∧
      dget (w'.messages.getD 0 []) TASK_LEVEL_FIELD =
        .vArr [.int 3, .int 4, .int 1, .int 1] ∧
      dget (w'.messages.getD 0 []) TASK_UUID_FIELD = .vStr uuid ∧
      dget (w'.messages.getD 0 []) ACTION_STATUS_FIELD = .vStr STARTED_STATUS := by
  obtain ⟨l⟩ := uuid
  have h1 : ((Action.make ⟨l⟩ ⟨[.int 3, .int 4]⟩ "mytype" none).serializeTaskId).1 =
      (⟨l⟩ : String) ++ "@/3/4/1" := by
    show (⟨l⟩ : String) ++ "@" ++ TaskLevel.render ⟨[.int 3, .int 4, .int 1]⟩ = _
    rw [show TaskLevel.render ⟨[.int 3, .int 4, .int 1]⟩ = "/3/4/1" from rfl,
      String.append_assoc]
    rfl
  refine ⟨h1, rfl, ?_⟩
  rw [h1]
  have hsplit : splitChars '@' (((⟨l⟩ : String) ++ "@/3/4/1").data) =
      l :: ["/3/4/1".data] := by
    rw [String.data_append,
      show ("@/3/4/1" : String).data = '@' :: ("/3/4/1" : String).data from rfl,
      splitChars_append '@' l _ h,
      splitChars_no_sep '@' _ (by decide)]
  simp only [Action.continueTask]
  rw [hsplit]
  exact ⟨_, _, rfl, rfl, rfl, rfl, rfl, rfl, rfl⟩

/-- Witness for C4 at the concrete uuid `uniq`. -/
theorem c4_continuation_witness :
    '@' ∉ ("uniq" : String).data ∧
    (((Action.make "uniq" ⟨[.int 3, .int 4]⟩ "mytype" none).serializeTaskId).1 =
      "uniq" ++ "@/3/4/1" ∧
    (((Action.make "uniq" ⟨[.int 3, .int 4]⟩ "mytype" none).serializeTaskId).2.nextTaskLevel).1 =
      ⟨[.int 3, .int 4, .int 2]⟩) := by
  have hh : '@' ∉ ("uniq" : String).data := by decide
  obtain ⟨h1, h2, _⟩ := c4_continuation "uniq" hh
  exact ⟨hh, h1, h2⟩


/-- Minimal JSON string escaping (quote and backslash; the strings the
library stringifies contain no control characters). -/
def jsonEscape (s : String) : String :=
  s.data.foldl (fun acc c =>
    if c = '"' then acc ++ "\\\""
    else if c = '\\' then acc ++ "\\\\"
    else acc.push c) ""

/-- `JSON.stringify` of a single value; `none` marks `undefined`, which is
omitted from objects; `NaN` serializes as `null`; error objects have no
enumerable properties and serialize as `{}`. -/
def jsonValue : JsValue → Option String
  | .vUndef => none
  | .vNull => some "null"
  | .vBool b => some (cond b "true" "false")
  | .vNum (.int n) => some (toString n)
  | .vNum .nan => some "null"
  | .vStr s => some ("\"" ++ jsonEscape s ++ "\"")
  | .vArr xs => some ("[" ++ String.intercalate ","
      (xs.map (fun x => match x with
        | .int n => toString n
        | .nan => "null")) ++ "]")
  | .vErr _ _ => some "\x7b\x7d"

/-- `JSON.stringify` of a message dictionary. -/
def jsonStringify (d : Dict) : String :=
  "\x7b" ++ String.intercalate ","
    (d.filterMap (fun p => (jsonValue p.2).map
      (fun s => "\"" ++ jsonEscape p.1 ++ "\":" ++ s))) ++ "\x7d"

/-- The state of the output module: messages delivered to each destination
so far, the destination functions themselves (which may throw), the
registered global fields, the framing freshness sources, the ambient
current action consulted by `Message#_freeze`, and the stack-trace
extractor (an external collaborator). -/
structure OutWorld where
  delivered : List Dict
  sinks : List (Dict → Option JsErr)
  globalFields : Dict
  uuidCtr : Nat
  time : Int
  current : Option Action
  stackOf : JsErr → String

/-- `Destinations#send`: assigns the global fields onto the caller's
message object in place, invokes every destination with that object, and
collects (rather than immediately propagating) each destination's error;
a non-empty error list is thrown as a single `_DestinationsSendError`.
Returns the updated world, the merged message (the caller's object's new
value) and the collected errors. -/
def Destinations.send (w : OutWorld) (message : Dict) :
    OutWorld × Dict × List JsErr :=
  ({ w with delivered := w.delivered ++
      w.sinks.map (fun _ => dassign message w.globalFields) },
   dassign message w.globalFields,
   w.sinks.filterMap (fun snk => snk (dassign message w.globalFields)))

/-- `Message#_freeze` in the output module: uses the current action when
one exists, otherwise a fresh uuid and level `[1]`. -/
def Message.freezeOut (m : Message) (w : OutWorld) : Dict × OutWorld :=
  match w.current with
  | none =>
    (dassign (dassign [] m.fields)
       [(TIMESTAMP_FIELD, vInt w.time),
        (TASK_UUID_FIELD, .vStr (freshUuid w.uuidCtr)),
        (TASK_LEVEL_FIELD, .vArr [.int 1])],
     { w with uuidCtr := w.uuidCtr + 1 })
  | some a =>
    (dassign (dassign [] m.fields)
       [(TIMESTAMP_FIELD, vInt w.time),
        (TASK_UUID_FIELD, .vStr a.taskUuid),
        (TASK_LEVEL_FIELD, .vArr ((a.nextTaskLevel).1).level)],
     { w with current := some (a.nextTaskLevel).2 })

/-- `TRACEBACK_MESSAGE` from traceback.js before the post-construction
mutation: `MessageType('eliot_js:traceback', [reason/traceback/exception])`
with the reason field serializing via `toString` and the other two via the
identity. -/
def TRACEBACK_MESSAGE_BASE : Except JsErr MTModel :=
  mkMessageType "eliot_js:traceback"
    [⟨REASON_FIELD, ⟨"The exception value.", fun v => .ok (.vStr (jsDisplay v)), none⟩⟩,
     ⟨TRACEBACK_FIELD, ⟨"The traceback.", fun v => .ok v, none⟩⟩,
     ⟨EXCEPTION_FIELD, ⟨"The exception type name.", fun v => .ok v, none⟩⟩]

/-- `TRACEBACK_MESSAGE` after the source's
`TRACEBACK_MESSAGE._serializer.allowAdditionalFields = true` mutation; the
error branch is unreachable (the construction succeeds, by `rfl`). -/
def TRACEBACK_MESSAGE : MTModel :=
  match TRACEBACK_MESSAGE_BASE with
  | .ok t => { t with serializer := { t.serializer with allowAdditionalFields := true } }
  | .error _ => ⟨"eliot_js:traceback", ⟨[], true⟩⟩

/-- `writeTracebackMessage`: the `TRACEBACK_MESSAGE` call with the raised
error, its extracted stack and its type name (stack-trace extraction is
the external collaborator `w.stackOf`). -/
def writeTracebackMsg (e : JsErr) (w : OutWorld) : Message :=
  TRACEBACK_MESSAGE.call
    [(REASON_FIELD, .vErr e.name e.emsg),
     (TRACEBACK_FIELD, .vStr (w.stackOf e)),
     (EXCEPTION_FIELD, .vStr e.name)]

/-- The recovery loop of `Logger#write` for destination failures: for each
collected error, a `destination_failure` message is frozen and sent back
through the same destinations, and any further failure in that send is
swallowed. -/
def destFailureLoop (dict : Dict) : OutWorld → List JsErr → OutWorld
  | w, [] => w
  | w, ee :: rest =>
    let fb := Message.create
      [(MESSAGE_TYPE_FIELD, .vStr "eliot_js:destination_failure"),
       (REASON_FIELD, .vStr ee.render),
       (EXCEPTION_FIELD, .vStr ee.name),
       ("message", .vStr (jsonStringify dict))] none
    let fz := fb.freezeOut w
    destFailureLoop dict (Destinations.send fz.2 fz.1).1 rest

/-- The send-and-recover tail of `Logger#write`: send the dictionary; when
the aggregate destination error is thrown, convert each component error
into a `destination_failure` diagnostic routed through the same
destinations (`Destinations.send` only ever throws
`_DestinationsSendError`, so the source's other rethrow branch has no
inhabitant here). -/
def Logger.sendAndRecover (w : OutWorld) (dict : Dict) : OutWorld :=
  match Destinations.send w dict with
  | (w1, _, []) => w1
  | (w1, _, errs) => destFailureLoop dict w1 errs

/-- `Logger#write` (the fuel bounds the writeTraceback recursion, whose
real depth is at most two because the traceback serializer itself never
throws): copy the dictionary; serialize the copy when a serializer is
given; if serialization throws, report the error as a traceback message
and write the `serialization_failure` fallback (whose `message` field
stringifies the copy as mutated by the partial serialize run) instead of
the original; otherwise send, recovering destination failures. -/
def Logger.write : Nat → OutWorld → Dict → Option _MessageSerializer → OutWorld
  | 0, w, _, _ => w
  | Nat.succ fuel, w, dict0, ser =>
    match ser with
    | none => Logger.sendAndRecover w (dassign [] dict0)
    | some s =>
      match s.serializeRun (dassign [] dict0) with
      | (dict1, some e) =>
        let tb := writeTracebackMsg e w
        let fz := tb.freezeOut w
        let w2 := Logger.write fuel fz.2 fz.1 tb.serializer
        let fb := Message.create
          [(MESSAGE_TYPE_FIELD, .vStr "eliot_js:serialization_failure"),
           ("message", .vStr (jsonStringify dict1))] none
        let fz2 := fb.freezeOut w2
        Logger.write fuel fz2.2 fz2.1 none
      | (dict1, none) => Logger.sendAndRecover w dict1


/-- A heap of message objects; a reference is an index into the heap. This
makes the in-place mutation of `Destinations#send` observable: the caller
and the destinations hold references, not values. -/
abbrev Store := List Dict

/-- `Destinations#send` over the heap:
`message = Object.assign(message, this._globalFields)` overwrites the
object at the caller's reference `r` with the merge, then every
destination is invoked with that same reference (no copy). Returns the
updated heap, the references handed to the destinations in order, and the
collected destination errors. -/
def Destinations.sendRef (sinks : List (Dict → Option JsErr)) (globalFields : Dict)
    (st : Store) (r : Nat) : Store × List Nat × List JsErr :=
  let merged := dassign ((st[r]?).getD []) globalFields
  (st.set r merged, sinks.map (fun _ => r),
   sinks.filterMap (fun snk => snk merged))

/-- The copy at the head of `Logger#write`
(`dict = Object.assign({}, dict)`) over the heap: a fresh object holding a
copy of the caller's dictionary is allocated, and that fresh reference —
never the caller's — is what `send` mutates. Returns the heap after the
send, the copy's reference, the references handed to the destinations,
and the collected errors. -/
def Logger.writeCopyRef (sinks : List (Dict → Option JsErr)) (globalFields : Dict)
    (st : Store) (r : Nat) : Store × Nat × List Nat × List JsErr :=
  let st1 := st ++ [dassign [] ((st[r]?).getD [])]
  let res := Destinations.sendRef sinks globalFields st1 st.length
  (res.1, st.length, res.2.1, res.2.2)


/-- C10: `Destinations.send(message)` mutates its argument in place: the
global fields are assigned into the caller's message object (overwriting
colliding keys) before fan-out; every destination receives that same
mutated object (the caller's reference, not a copy); and callers of
`Logger.write` are shielded only because `write` copies the dictionary
into a fresh object first, so the caller's object is untouched by the
write. -/
theorem c10_send_mutates (sinks : List (Dict → Option JsErr))
    (globalFields : Dict) (st : Store) (r : Nat) (h : r < st.length) :
    ((Destinations.sendRef sinks globalFields st r).1[r]? =
      some (dassign ((st[r]?).getD []) globalFields)) ∧
    (∀ k v, dlookLast globalFields k = some v →
      dget (dassign ((st[r]?).getD []) globalFields) k = v) ∧
    ((Destinations.sendRef sinks globalFields st r).2.1 = sinks.map (fun _ => r)) ∧
    ((Logger.writeCopyRef sinks globalFields st r).2.1 ≠ r) ∧
    ((Logger.writeCopyRef sinks globalFields st r).1[r]? = st[r]?) := by
  refine ⟨?_, ?_, rfl, ?_, ?_⟩
  · simp [Destinations.sendRef, List.getElem?_set, h]
  · intro k v hv
    rw [dget_dassign, hv]
    rfl
  · exact fun hr => absurd hr.symm (Nat.ne_of_lt h)
  · show ((st ++ [dassign [] ((st[r]?).getD [])]).set st.length _)[r]? = st[r]?
    rw [List.getElem?_set_ne (Ne.symm (Nat.ne_of_lt h))]
    rw [List.getElem?_append, if_pos h]

/-- Witness for C10 at a concrete heap: one destination, one global field
colliding with the caller's, reference 0 into a one-object heap. -/
theorem c10_send_mutates_witness :
    (0 < ([[("a", vInt 1), ("g", vInt 0)]] : Store).length) ∧
    (((Destinations.sendRef ([fun _ => none] : List (Dict → Option JsErr)) [("g", vInt 5)]
        [[("a", vInt 1), ("g", vInt 0)]] 0).1[0]? =
      some (dassign ((([[("a", vInt 1), ("g", vInt 0)]] : Store)[0]?).getD [])
        [("g", vInt 5)])) ∧
    (∀ k v, dlookLast [("g", vInt 5)] k = some v →
      dget (dassign ((([[("a", vInt 1), ("g", vInt 0)]] : Store)[0]?).getD [])
        [("g", vInt 5)]) k = v) ∧
    ((Destinations.sendRef ([fun _ => none] : List (Dict → Option JsErr)) [("g", vInt 5)]
        [[("a", vInt 1), ("g", vInt 0)]] 0).2.1 =
      ([fun _ => none] : List (Dict → Option JsErr)).map (fun _ => 0)) ∧
    ((Logger.writeCopyRef ([fun _ => none] : List (Dict → Option JsErr)) [("g", vInt 5)]
        [[("a", vInt 1), ("g", vInt 0)]] 0).2.1 ≠ 0) ∧
    ((Logger.writeCopyRef ([fun _ => none] : List (Dict → Option JsErr)) [("g", vInt 5)]
        [[("a", vInt 1), ("g", vInt 0)]] 0).1[0]? =
      ([[("a", vInt 1), ("g", vInt 0)]] : Store)[0]?)) :=
  ⟨by decide,
   c10_send_mutates ([fun _ => none] : List (Dict → Option JsErr)) [("g", vInt 5)]
     [[("a", vInt 1), ("g", vInt 0)]] 0 (by decide)⟩


/-- `Message#_freeze` with no ambient action: fresh uuid, level `[1]`,
uuid counter bumped. -/
theorem freezeOut_none (m : Message) (w : OutWorld) (hcur : w.current = none) :
    m.freezeOut w =
      (dassign (dassign [] m.fields)
        [(TIMESTAMP_FIELD, vInt w.time),
         (TASK_UUID_FIELD, .vStr (freshUuid w.uuidCtr)),
         (TASK_LEVEL_FIELD, .vArr [.int 1])],
       { w with uuidCtr := w.uuidCtr + 1 }) := by
  rw [Message.freezeOut, hcur]

/-- When every destination succeeds, `Logger#write`'s send tail just
appends one merged copy of the dictionary per destination. -/
theorem sendAndRecover_total (w : OutWorld) (dict : Dict)
    (hsinks : ∀ snk ∈ w.sinks, ∀ m, snk m = none) :
    Logger.sendAndRecover w dict =
      { w with delivered := w.delivered ++
          w.sinks.map (fun _ => dassign dict w.globalFields) } := by
  have h : w.sinks.filterMap (fun snk => snk (dassign dict w.globalFields)) = [] :=
    List.filterMap_eq_nil_iff.mpr (fun snk hs => hsinks snk hs _)
  rw [Logger.sendAndRecover, Destinations.send]
  simp only [h]

/-- Unfolding of `Logger#write` at positive fuel without a serializer. -/
theorem write_succ_none (fuel : Nat) (w : OutWorld) (dict : Dict) :
    Logger.write (fuel + 1) w dict none =
      Logger.sendAndRecover w (dassign [] dict) := rfl

/-- Unfolding of `Logger#write` at positive fuel when serialization of the
copy throws: the traceback message then the fallback message are written
in turn. -/
theorem write_succ_throw (fuel : Nat) (w : OutWorld) (dict0 d1 : Dict)
    (s : _MessageSerializer) (e : JsErr)
    (hrun : s.serializeRun (dassign [] dict0) = (d1, some e)) :
    Logger.write (fuel + 1) w dict0 (some s) =
      (let tb := writeTracebackMsg e w
       let fz := tb.freezeOut w
       let w2 := Logger.write fuel fz.2 fz.1 tb.serializer
       let fb := Message.create
         [(MESSAGE_TYPE_FIELD, .vStr "eliot_js:serialization_failure"),
          ("message", .vStr (jsonStringify d1))] none
       let fz2 := fb.freezeOut w2
       Logger.write fuel fz2.2 fz2.1 none) := by
  show (match s.serializeRun (dassign [] dict0) with
    | (dict1, some e) =>
      let tb := writeTracebackMsg e w
      let fz := tb.freezeOut w
      let w2 := Logger.write fuel fz.2 fz.1 tb.serializer
      let fb := Message.create
        [(MESSAGE_TYPE_FIELD, .vStr "eliot_js:serialization_failure"),
         ("message", .vStr (jsonStringify dict1))] none
      let fz2 := fb.freezeOut w2
      Logger.write fuel fz2.2 fz2.1 none
    | (dict1, none) => Logger.sendAndRecover w dict1) = _
  rw [hrun]

/-- Serializing a frozen traceback message succeeds and only rewrites the
`reason` field to the error's string rendering. -/
theorem tb_serializeRun (e : JsErr) (s2 : String) (ts uu lv : JsValue) :
    TRACEBACK_MESSAGE.serializer.serializeRun
      (dassign []
        [(REASON_FIELD, .vErr e.name e.emsg),
         (TRACEBACK_FIELD, .vStr s2),
         (EXCEPTION_FIELD, .vStr e.name),
         (MESSAGE_TYPE_FIELD, .vStr "eliot_js:traceback"),
         (TIMESTAMP_FIELD, ts), (TASK_UUID_FIELD, uu), (TASK_LEVEL_FIELD, lv)]) =
      ([(REASON_FIELD, .vStr e.render),
        (TRACEBACK_FIELD, .vStr s2),
        (EXCEPTION_FIELD, .vStr e.name),
        (MESSAGE_TYPE_FIELD, .vStr "eliot_js:traceback"),
        (TIMESTAMP_FIELD, ts), (TASK_UUID_FIELD, uu), (TASK_LEVEL_FIELD, lv)],
       none) := rfl


/-- Unfolding of `Logger#write` at positive fuel when serialization of the
copy succeeds. -/
theorem write_succ_ok (fuel : Nat) (w : OutWorld) (dict0 d1 : Dict)
    (s : _MessageSerializer)
    (hrun : s.serializeRun (dassign [] dict0) = (d1, none)) :
    Logger.write (fuel + 1) w dict0 (some s) = Logger.sendAndRecover w d1 := by
  show (match s.serializeRun (dassign [] dict0) with
    | (dict1, some e) =>
      let tb := writeTracebackMsg e w
      let fz := tb.freezeOut w
      let w2 := Logger.write fuel fz.2 fz.1 tb.serializer
      let fb := Message.create
        [(MESSAGE_TYPE_FIELD, .vStr "eliot_js:serialization_failure"),
         ("message", .vStr (jsonStringify dict1))] none
      let fz2 := fb.freezeOut w2
      Logger.write fuel fz2.2 fz2.1 none
    | (dict1, none) => Logger.sendAndRecover w dict1) = _
  rw [hrun]

/-- C5 (amended): for a logger with no global fields, no ambient action and
non-throwing destinations, when serializing the copied dictionary throws,
`Logger.write` returns normally (it is total into `OutWorld`; nothing
propagates to the caller) and the new deliveries consist of exactly one
traceback message reporting the raised error followed by one fallback
message of type `eliot_js:serialization_failure` per destination — the
fallback's `message` field being the JSON string of the copy as mutated by
the partial serialize run, not of the original dictionary — and the
original message is not among the new deliveries (fuel 2 covers the
write-traceback recursion, whose depth in this path is exactly two). -/
theorem c5_serialization_failure (w : OutWorld) (d d1 : Dict)
    (s : _MessageSerializer) (e : JsErr)
    (hrun : s.serializeRun (dassign [] d) = (d1, some e))
    (hgf : w.globalFields = [])
    (hcur : w.current = none)
    (hsinks : ∀ snk ∈ w.sinks, ∀ m, snk m = none)
    (hmt1 : dget d MESSAGE_TYPE_FIELD ≠ .vStr "eliot_js:traceback")
    (hmt2 : dget d MESSAGE_TYPE_FIELD ≠ .vStr "eliot_js:serialization_failure") :
    ∃ tbD fbD : Dict,
      (Logger.write 2 w d (some s)).delivered =
        w.delivered ++ w.sinks.map (fun _ => tbD) ++ w.sinks.map (fun _ => fbD) ∧
      dget tbD MESSAGE_TYPE_FIELD = .vStr "eliot_js:traceback" ∧
      dget tbD EXCEPTION_FIELD = .vStr e.name ∧
      dget tbD REASON_FIELD = .vStr e.render ∧
      dget fbD MESSAGE_TYPE_FIELD = .vStr "eliot_js:serialization_failure" ∧
      dget fbD "message" = .vStr (jsonStringify d1) ∧
      ∀ x ∈ w.sinks.map (fun _ => tbD) ++ w.sinks.map (fun _ => fbD),
        dget x MESSAGE_TYPE_FIELD ≠ dget d MESSAGE_TYPE_FIELD := by
  refine ⟨[(REASON_FIELD, .vStr e.render),
      (TRACEBACK_FIELD, .vStr (w.stackOf e)),
      (EXCEPTION_FIELD, .vStr e.name),
      (MESSAGE_TYPE_FIELD, .vStr "eliot_js:traceback"),
      (TIMESTAMP_FIELD, vInt w.time),
      (TASK_UUID_FIELD, .vStr (freshUuid w.uuidCtr)),
      (TASK_LEVEL_FIELD, .vArr [.int 1])],
    [(MESSAGE_TYPE_FIELD, .vStr "eliot_js:serialization_failure"),
      ("message", .vStr (jsonStringify d1)),
      (TIMESTAMP_FIELD, vInt w.time),
      (TASK_UUID_FIELD, .vStr (freshUuid (w.uuidCtr + 1))),
      (TASK_LEVEL_FIELD, .vArr [.int 1])],
    ?_, rfl, rfl, rfl, rfl, rfl, ?_⟩
  · have h0 : Logger.write 2 w d (some s) = Logger.write (1 + 1) w d (some s) := rfl
    have hfz : (writeTracebackMsg e w).freezeOut w =
        ([(REASON_FIELD, .vErr e.name e.emsg),
          (TRACEBACK_FIELD, .vStr (w.stackOf e)),
          (EXCEPTION_FIELD, .vStr e.name),
          (MESSAGE_TYPE_FIELD, .vStr "eliot_js:traceback"),
          (TIMESTAMP_FIELD, vInt w.time),
          (TASK_UUID_FIELD, .vStr (freshUuid w.uuidCtr)),
          (TASK_LEVEL_FIELD, .vArr [.int 1])],
         { w with uuidCtr := w.uuidCtr + 1 }) := by
      rw [freezeOut_none _ _ hcur]
      rfl
    have htbser : (writeTracebackMsg e w).serializer =
        some TRACEBACK_MESSAGE.serializer := rfl
    have hB : Logger.write 1 { w with uuidCtr := w.uuidCtr + 1 }
        [(REASON_FIELD, .vErr e.name e.emsg),
         (TRACEBACK_FIELD, .vStr (w.stackOf e)),
         (EXCEPTION_FIELD, .vStr e.name),
         (MESSAGE_TYPE_FIELD, .vStr "eliot_js:traceback"),
         (TIMESTAMP_FIELD, vInt w.time),
         (TASK_UUID_FIELD, .vStr (freshUuid w.uuidCtr)),
         (TASK_LEVEL_FIELD, .vArr [.int 1])]
        (some TRACEBACK_MESSAGE.serializer) =
        { w with uuidCtr := w.uuidCtr + 1,
                 delivered := w.delivered ++ w.sinks.map (fun _ =>
                   [(REASON_FIELD, .vStr e.render),
                    (TRACEBACK_FIELD, .vStr (w.stackOf e)),
                    (EXCEPTION_FIELD, .vStr e.name),
                    (MESSAGE_TYPE_FIELD, .vStr "eliot_js:traceback"),
                    (TIMESTAMP_FIELD, vInt w.time),
                    (TASK_UUID_FIELD, .vStr (freshUuid w.uuidCtr)),
                    (TASK_LEVEL_FIELD, .vArr [.int 1])]) } := by
      rw [show Logger.write 1 = Logger.write (0 + 1) from rfl,
        write_succ_ok 0 _ _ _ _
          (tb_serializeRun e (w.stackOf e) (vInt w.time)
            (.vStr (freshUuid w.uuidCtr)) (.vArr [.int 1])),
        sendAndRecover_total]
      · simp only [hgf, dassign_nil]
      · exact hsinks
    rw [h0, write_succ_throw 1 w d d1 s e hrun]
    simp only [hfz, htbser, hB]
    rw [freezeOut_none]
    rw [show Logger.write 1 = Logger.write (0 + 1) from rfl, write_succ_none,
      sendAndRecover_total]
    · simp only [Message.create, hgf, dassign_nil]
      rfl
    · exact hsinks
    · exact hcur
  · intro x hx
    rcases List.mem_append.mp hx with hx | hx <;>
      rcases List.mem_map.mp hx with ⟨y, hy, rfl⟩
    · exact fun hc => hmt1 (by rw [← hc]; rfl)
    · exact fun hc => hmt2 (by rw [← hc]; rfl)


/-- A concrete serializer whose `k1` field rewrites its value before the
`k2` field throws (used to observe the partial mutation of the copy). -/
def c5ser : _MessageSerializer :=
  match mkMessageSerializer
      [⟨"k1", ⟨"Constant field.", fun _ => .ok (vInt 2), none⟩⟩,
       ⟨"k2", ⟨"Throwing field.", fun _ => .error ⟨"Boom", "bad", none⟩, none⟩⟩,
       BoundField.forValue MESSAGE_TYPE_FIELD (.vStr "app:m") "The message type."]
      false with
  | .ok s => s
  | .error _ => ⟨[], false⟩

/-- A concrete dictionary rejected by `c5ser` at `k2` after `k1` has been
rewritten. -/
def c5d : Dict :=
  [(MESSAGE_TYPE_FIELD, .vStr "app:m"), ("k1", vInt 1), ("k2", vInt 1)]

/-- A concrete output world: one non-throwing destination, no global
fields, no ambient action. -/
def c5w : OutWorld :=
  ⟨[], [fun _ => none], [], 0, 0, none, fun _ => "stack"⟩


/-- Witness for the C5 theorem at the concrete serializer, dictionary and
world: serialization of the copy throws at `k2` with `k1` already
rewritten, and the theorem's conclusion holds there. -/
theorem c5_serialization_failure_witness :
    c5ser.serializeRun (dassign [] c5d) =
      ([(MESSAGE_TYPE_FIELD, .vStr "app:m"), ("k1", vInt 2), ("k2", vInt 1)],
       some ⟨"Boom", "bad", none⟩) ∧
    (∃ tbD fbD : Dict,
      (Logger.write 2 c5w c5d (some c5ser)).delivered =
        c5w.delivered ++ c5w.sinks.map (fun _ => tbD) ++
          c5w.sinks.map (fun _ => fbD) ∧
      dget tbD MESSAGE_TYPE_FIELD = .vStr "eliot_js:traceback" ∧
      dget tbD EXCEPTION_FIELD = .vStr "Boom" ∧
      dget tbD REASON_FIELD = .vStr (JsErr.render ⟨"Boom", "bad", none⟩) ∧
      dget fbD MESSAGE_TYPE_FIELD = .vStr "eliot_js:serialization_failure" ∧
      dget fbD "message" = .vStr (jsonStringify
        [(MESSAGE_TYPE_FIELD, .vStr "app:m"), ("k1", vInt 2), ("k2", vInt 1)]) ∧
      ∀ x ∈ c5w.sinks.map (fun _ => tbD) ++ c5w.sinks.map (fun _ => fbD),
        dget x MESSAGE_TYPE_FIELD ≠ dget c5d MESSAGE_TYPE_FIELD) :=
  ⟨rfl,
   c5_serialization_failure c5w c5d
     [(MESSAGE_TYPE_FIELD, .vStr "app:m"), ("k1", vInt 2), ("k2", vInt 1)]
     c5ser ⟨"Boom", "bad", none⟩ rfl rfl rfl
     (by
       intro snk hs m
       simp only [c5w, List.mem_singleton] at hs
       subst hs
       rfl)
     (by decide) (by decide)⟩

/-- C5 counterexample to the spec's wording: the fallback's `message`
field is the JSON of the partially-serialized copy, which differs from the
JSON of the original dictionary (and of a fresh copy of it) because `k1`
was rewritten before `k2` threw. -/
theorem c5_counterexample :
    ∃ fbD,
      fbD ∈ (Logger.write 2 c5w c5d (some c5ser)).delivered ∧
      dget fbD MESSAGE_TYPE_FIELD = .vStr "eliot_js:serialization_failure" ∧
      dget fbD "message" = .vStr (jsonStringify
        [(MESSAGE_TYPE_FIELD, .vStr "app:m"), ("k1", vInt 2), ("k2", vInt 1)]) ∧
      dget fbD "message" ≠ .vStr (jsonStringify c5d) ∧
      dget fbD "message" ≠ .vStr (jsonStringify (dassign [] c5d)) := by
  refine ⟨[(MESSAGE_TYPE_FIELD, .vStr "eliot_js:serialization_failure"),
    ("message", .vStr (jsonStringify
      [(MESSAGE_TYPE_FIELD, .vStr "app:m"), ("k1", vInt 2), ("k2", vInt 1)])),
    (TIMESTAMP_FIELD, vInt 0), (TASK_UUID_FIELD, .vStr "uuid-1"),
    (TASK_LEVEL_FIELD, .vArr [.int 1])], ?_, rfl, rfl, by decide, by decide⟩
  decide

end Eliot
